import Mathlib

/-!
# Verification of the Proliferate gateway EventProcessor and VPS sandbox provider

Shallow embedding of `apps/gateway/src/hub/event-processor.ts` and of the
`VPSProvider` methods `ensureSandbox`, `checkSandboxes` and `execCommand`.

Modelling conventions:
* JS `Map` becomes an association list with `Map.set` semantics (update in
  place, insertion order kept); JS `Set` becomes a duplicate-free list.
* JS string truthiness (`!s` is true for `undefined`, `null` and `""`) is
  modelled by `strTruthy` on `Option String`.
* `Date.now()` is an explicit `now : Nat` argument threaded through the
  event-processing step.
* The arithmetic `now - t` in the heartbeat uses `Nat` truncated subtraction;
  the source compares `now - t < threshold` where a negative JS value and a
  truncated `0` land in the same branch, so the embedding is observationally
  equivalent.
* Optional telemetry callbacks (`onToolStart`, `onMessageComplete`, ...) are
  observers with no feedback into the processor and are not modelled; only the
  `broadcast` callback output is kept, as the ordered list of emitted messages.
-/

namespace Proliferate

/-- JS truthiness of an optional string: `undefined`/`null`/`""` are falsy. -/
def strTruthy : Option String → Bool
  | some s => !(s == "")
  | none => false

/-- JS `a || b` for an optional string `a` and a default string `b`:
`b` is used when `a` is absent or empty. -/
def jsOrStr (a : Option String) (b : String) : String :=
  match a with
  | some s => if s == "" then b else s
  | none => b

/-- JS `String.prototype.toLowerCase` (character-wise, as in
`String.toLower`), implemented over the character list so that proofs can
evaluate it. -/
def strToLower (s : String) : String :=
  ⟨s.data.map Char.toLower⟩

/-- JS `String.prototype.trim`: drop whitespace from both ends. -/
def jsTrim (s : String) : String :=
  ⟨((s.data.dropWhile Char.isWhitespace).reverse.dropWhile
      Char.isWhitespace).reverse⟩

/-- Split a character list at every occurrence of `c`
(JS `String.prototype.split` with a one-character separator). -/
def splitOnChar (c : Char) : List Char → List (List Char)
  | [] => [[]]
  | x :: xs =>
      let r := splitOnChar c xs
      if x == c then [] :: r
      else
        match r with
        | [] => [[x]]
        | h :: t => (x :: h) :: t

/-- JS `s.split("\n")`. -/
def strSplitLines (s : String) : List String :=
  (splitOnChar (Char.ofNat 10) s.data).map (fun l => ⟨l⟩)

/-- `p` is a prefix of `s` (JS `String.prototype.startsWith`). -/
def strIsPrefixOf (p s : String) : Bool :=
  p.data.isPrefixOf s.data

/-- `needle` occurs as a contiguous sublist of the second argument. -/
def listIsInfixOf (needle : List Char) : List Char → Bool
  | [] => needle.isEmpty
  | c :: t => needle.isPrefixOf (c :: t) || listIsInfixOf needle t

/-- `sub` occurs as a substring of `s` (JS `String.prototype.includes`). -/
def strContainsSub (s sub : String) : Bool :=
  listIsInfixOf sub.toList s.toList

/-- JS `Map.set`: replace the value in place when the key is present,
otherwise append the new binding. -/
def setAssoc {α : Type} (k : String) (v : α) : List (String × α) → List (String × α)
  | [] => [(k, v)]
  | (k', v') :: rest =>
      if k' == k then (k, v) :: rest else (k', v') :: setAssoc k v rest

/-- JS `Map.delete`: drop every binding with the given key. -/
def eraseAssoc {α : Type} (k : String) (l : List (String × α)) : List (String × α) :=
  l.filter (fun p => !(p.1 == k))

/-- Mutating an entry fetched with `Map.get` (`if (watch) { ... }`):
apply `f` to the value bound to `k`, leave everything else alone. -/
def updateAssoc {α : Type} (k : String) (f : α → α) (l : List (String × α)) :
    List (String × α) :=
  l.map (fun p => if p.1 == k then (p.1, f p.2) else p)

/-- JS `Set.add`: append the key if it is not already present. -/
def addSent (k : String) (l : List String) : List String :=
  if l.contains k then l else l ++ [k]

/-! ## Event data model (from `../types`, as consumed by the processor) -/

/-- The error value attached to `session.error` / `message.updated` events.
The source treats it as `unknown` and only ever reads, after `typeof` string
checks, the fields `name`, `message` and `data.message`, or the value itself
when it is a plain string; the embedding keeps exactly that observable data. -/
inductive ErrorVal where
  | vstr (s : String)
  | vobj (name message dataMessage : Option String)
deriving Repr, DecidableEq

/-- One entry of `part.state.metadata.summary` (`item.id`, `item.tool`,
`item.state.status`, `item.state.title`), flattened. -/
structure SummaryItem where
  id : String
  tool : String
  status : String
  title : Option String
deriving Repr, DecidableEq

/-- `part.state.metadata`: only the `summary` field is read. -/
structure PartMetadata where
  summary : Option (List SummaryItem)
deriving Repr, DecidableEq

/-- `part.state` of a `message.part.updated` event. The `input` object is
kept as its key/value pairs; the source only tests `Object.keys(args).length`
and forwards the object. -/
structure PartState where
  status : Option String
  input : Option (List (String × String))
  output : Option String
  error : Option String
  title : Option String
  metadata : Option PartMetadata
deriving Repr, DecidableEq

/-- A message part. `id`, `messageID` and `type` are required by the guard in
`handlePartUpdate` (`!part.id || !part.messageID || !part.type`); `""` stands
for both the missing and the empty JS value, which the guard treats alike. -/
structure Part where
  id : String
  messageID : String
  type : String
  sessionID : Option String
  callID : Option String
  tool : Option String
  text : Option String
  state : Option PartState
deriving Repr, DecidableEq

/-- `properties.info` of a `message.updated` event. `timeCompleted` is
`info.time?.completed` (a ms timestamp; `0` is falsy). The source reads both
the `sessionID` and `sessionId` spellings. -/
structure MessageInfo where
  id : Option String
  role : Option String
  sessionID : Option String
  sessionId : Option String
  error : Option ErrorVal
  timeCompleted : Option Nat
deriving Repr, DecidableEq

/-- OpenCode SSE events as dispatched by `EventProcessor.process`.
`sessionStatus` carries `properties.status?.type` (collapsing an absent
`properties` and an absent `status.type`, which the source treats alike);
`sessionError` carries `properties.error`. -/
inductive OpenCodeEvent where
  | serverConnected
  | serverHeartbeat
  | messageUpdated (info : Option MessageInfo)
  | messagePartUpdated (part : Option Part) (delta : Option String)
  | sessionIdle
  | sessionStatus (statusType : Option String)
  | sessionError (error : Option ErrorVal)
  | unknownEvent (type : String)
deriving Repr, DecidableEq

/-! ## Outbound client messages (`ServerMessage` payloads actually built) -/

/-- The messages passed to `callbacks.broadcast`, with the payload fields the
processor actually fills in. -/
inductive ServerMessage where
  | message (id : String) (role : String) (content : String)
      (isComplete : Bool) (createdAt : Nat)
  | token (messageId : String) (partId : String) (tok : String)
  | textPartComplete (messageId : String) (partId : String) (text : String)
  | toolStart (messageId : Option String) (partId : String)
      (toolCallId : String) (tool : String) (args : List (String × String))
  | toolMetadata (toolCallId : String) (tool : String)
      (title : Option String) (summary : List SummaryItem)
  | toolEnd (partId : String) (toolCallId : String) (tool : String)
      (result : String) (durationMs : Nat)
  | messageComplete (messageId : String)
  | error (message : String)
  | status (status : String) (message : String)
deriving Repr, DecidableEq

abbrev Broadcasts := List ServerMessage

/-! ## EventProcessor state -/

/-- Per-tool bookkeeping (`ToolState` in `../types`, as written by the
processor: `status` is `"running"`, `"completed"` or `"error"`). -/
structure ToolState where
  startEmitted : Bool
  argsEmitted : Bool
  endEmitted : Bool
  status : String
deriving Repr, DecidableEq

/-- One `runningToolWatch` entry. -/
structure Watch where
  toolName : String
  startedAt : Nat
  lastUpdateAt : Nat
  lastStatusBroadcastAt : Nat
deriving Repr, DecidableEq

/-- The mutable fields of `EventProcessor`, plus the constant
`callbacks.getOpenCodeSessionId()` answer (the hub's current OpenCode session
id), which the processor only reads. -/
structure EPState where
  openCodeSessionId : Option String
  currentAssistantMessageId : Option String
  currentOpenCodeUserMessageId : Option String
  toolStates : List (String × ToolState)
  runningToolWatch : List (String × Watch)
  sentToolEvents : List String
deriving Repr, DecidableEq

namespace EventProcessor

/-- `EventProcessor.toolProgressHeartbeatMs`. -/
def toolProgressHeartbeatMs : Nat := 15000

/-- `EventProcessor.hasRunningTools`. -/
def hasRunningTools (s : EPState) : Bool :=
  s.toolStates.any (fun p => p.2.status == "running")

/-- `EventProcessor.resetForNewPrompt`. -/
def resetForNewPrompt (s : EPState) : EPState :=
  { s with
    currentAssistantMessageId := none
    currentOpenCodeUserMessageId := none
    toolStates := []
    runningToolWatch := []
    sentToolEvents := [] }

/-- `EventProcessor.clearCurrentAssistantMessageId`. -/
def clearCurrentAssistantMessageId (s : EPState) : EPState :=
  { s with
    currentAssistantMessageId := none
    toolStates := []
    runningToolWatch := []
    sentToolEvents := [] }

/-- `getOpenCodeErrorMessage`: pick the first non-empty of
`data.message`, `message`, `name`, or the string itself. -/
def getOpenCodeErrorMessage : Option ErrorVal → Option String
  | none => none
  | some (.vstr s) => if s == "" then none else some s
  | some (.vobj name message dataMessage) =>
      match dataMessage with
      | some d =>
          if d == "" then
            match message with
            | some m => if m == "" then (match name with
                | some n => if n == "" then none else some n
                | none => none) else some m
            | none => match name with
                | some n => if n == "" then none else some n
                | none => none
          else some d
      | none =>
          match message with
          | some m => if m == "" then (match name with
              | some n => if n == "" then none else some n
              | none => none) else some m
          | none => match name with
              | some n => if n == "" then none else some n
              | none => none

/-- One abort-phrase test of `isAbortLikeOpenCodeError` on an
already-lowercased message. -/
def abortPhrase (m : String) : Bool :=
  strContainsSub m "operation was aborted" ||
  strContainsSub m "signal is aborted" ||
  m == "aborterror"

/-- `isAbortLikeOpenCodeError`: abort-like when the error name is
`MessageAbortedError`/`AbortError` (case-insensitively) or when any of the
message texts matches a known cancellation phrase. -/
def isAbortLikeOpenCodeError : Option ErrorVal → Bool
  | none => false
  | some (.vstr s) =>
      if s == "" then false
      else abortPhrase (strToLower s)
  | some (.vobj name message dataMessage) =>
      let normalizedName := name.map strToLower
      if normalizedName == some "messageabortederror" ||
         normalizedName == some "aborterror" then true
      else
        (([message, dataMessage].filterMap id).map strToLower).any abortPhrase

/-- `EventProcessor.completeCurrentMessage`. -/
def completeCurrentMessage (s : EPState) : EPState × Broadcasts :=
  match s.currentAssistantMessageId with
  | none => (s, [])
  | some mid =>
      if hasRunningTools s then (s, [])
      else
        let hadTools := s.toolStates.length > 0
        ({ s with
            currentAssistantMessageId := if hadTools then none else some mid
            toolStates := []
            runningToolWatch := []
            sentToolEvents := [] },
         [.messageComplete mid])

/-- The error broadcast an assistant `message.updated` may carry
(`getOpenCodeErrorMessage` + abort-likeness classification). -/
def messageErrorBroadcasts (err : Option ErrorVal) : Broadcasts :=
  match getOpenCodeErrorMessage err with
  | some errorMessage =>
      if isAbortLikeOpenCodeError err then [] else [.error errorMessage]
  | none => []

/-- The shared "create the assistant message on first sight" block
(`if (!this.currentAssistantMessageId) { ...; broadcast message }`). -/
def ensureAssistantMessage (s : EPState) (now : Nat) (messageID : String) :
    EPState × Broadcasts :=
  if s.currentAssistantMessageId == none then
    ({ s with currentAssistantMessageId := some messageID },
     [.message messageID "assistant" "" false now])
  else (s, [])

/-- `EventProcessor.handleMessageUpdate`. -/
def handleMessageUpdate (s : EPState) (now : Nat) (info? : Option MessageInfo) :
    EPState × Broadcasts :=
  match info? with
  | none => (s, [])
  | some info =>
      match info.id, info.role with
      | some messageId, some role =>
          if messageId == "" || role == "" then (s, [])
          else
            let sessionId? := info.sessionID <|> info.sessionId
            if strTruthy s.openCodeSessionId && strTruthy sessionId? &&
               !(sessionId? == s.openCodeSessionId) then (s, [])
            else if role == "user" then
              if s.currentOpenCodeUserMessageId == none then
                ({ s with currentOpenCodeUserMessageId := some messageId }, [])
              else (s, [])
            else if !(role == "assistant") then (s, [])
            else
              let c := ensureAssistantMessage s now messageId
              let s₁ := c.1
              let out₁ := c.2
              if !(s₁.currentAssistantMessageId == some messageId) then (s₁, out₁)
              else
                let out₂ := messageErrorBroadcasts info.error
                let completedTruthy :=
                  match info.timeCompleted with
                  | some n => !(n == 0)
                  | none => false
                if completedTruthy then
                  let r := completeCurrentMessage s₁
                  (r.1, out₁ ++ out₂ ++ r.2)
                else (s₁, out₁ ++ out₂)
      | _, _ => (s, [])

/-- The "first text part after sending prompt is the user message" tracking
at the top of `handleTextPart`. -/
def trackUserMessage (s : EPState) (messageID : String) : EPState :=
  if s.currentOpenCodeUserMessageId == none then
    { s with currentOpenCodeUserMessageId := some messageID }
  else s

/-- `EventProcessor.handleTextPart`. -/
def handleTextPart (s : EPState) (now : Nat) (part : Part) (delta? : Option String) :
    EPState × Broadcasts :=
  let s := trackUserMessage s part.messageID
  -- Skip user message parts - only emit events for assistant messages
  if s.currentOpenCodeUserMessageId == some part.messageID then (s, [])
  else
    let c := ensureAssistantMessage s now part.messageID
    let s := c.1
    -- `currentAssistantMessageId` is necessarily set at this point.
    let mid := s.currentAssistantMessageId.getD ""
    if strTruthy delta? then
      (s, c.2 ++ [.token mid part.id (delta?.getD "")])
    else if strTruthy part.text then
      (s, c.2 ++ [.textPartComplete mid part.id (part.text.getD "")])
    else (s, c.2)

/-- The tool_start / args-update deduplication block of `handleToolPart`. -/
def toolStartStage (s : EPState) (now : Nat) (part : Part)
    (toolCallId toolName : String) (msgId? : Option String)
    (args : List (String × String)) (hasArgs : Bool) : EPState × Broadcasts :=
  let startKey := part.id ++ ":start"
  let argsKey := part.id ++ ":args"
  -- Emit tool_start on first sighting
  if !(s.sentToolEvents.contains startKey) then
    let sent := addSent startKey s.sentToolEvents
    let sent := if hasArgs then addSent argsKey sent else sent
    ({ s with
        sentToolEvents := sent
        toolStates := setAssoc toolCallId
          { startEmitted := true, argsEmitted := hasArgs,
            endEmitted := false, status := "running" } s.toolStates
        runningToolWatch := setAssoc toolCallId
          { toolName := toolName, startedAt := now,
            lastUpdateAt := now, lastStatusBroadcastAt := 0 } s.runningToolWatch },
     [.toolStart msgId? part.id toolCallId toolName args])
  else if hasArgs && !(s.sentToolEvents.contains argsKey) then
    ({ s with
        sentToolEvents := addSent argsKey s.sentToolEvents
        runningToolWatch := updateAssoc toolCallId
          (fun w => { w with lastUpdateAt := now, toolName := toolName })
          s.runningToolWatch },
     [.toolStart msgId? part.id toolCallId toolName args])
  else (s, [])

/-- The summary deduplication key
`${part.id}:summary:${summaryTitle}:${summarySignature}`. -/
def summaryKeyFor (part : Part) (summary : List SummaryItem) : String :=
  let summarySignature := String.intercalate "|"
    (summary.map (fun (item : SummaryItem) =>
      item.id ++ ":" ++ item.tool ++ ":" ++ item.status ++ ":" ++
        item.title.getD ""))
  let summaryTitle := (part.state.bind (·.title)).getD ""
  part.id ++ ":summary:" ++ summaryTitle ++ ":" ++ summarySignature

/-- The metadata (task-summary) block of `handleToolPart`. -/
def toolMetadataStage (s : EPState) (now : Nat) (part : Part)
    (toolCallId toolName : String) : EPState × Broadcasts :=
  match (part.state.bind (·.metadata)).bind (·.summary) with
  | none => (s, [])
  | some summary =>
      let summaryKey := summaryKeyFor part summary
      if !(s.sentToolEvents.contains summaryKey) then
        ({ s with
            sentToolEvents := addSent summaryKey s.sentToolEvents
            runningToolWatch := updateAssoc toolCallId
              (fun w => { w with lastUpdateAt := now, toolName := toolName })
              s.runningToolWatch },
         [.toolMetadata toolCallId toolName (part.state.bind (·.title)) summary])
      else (s, [])

/-- The completion block of `handleToolPart` (`status === completed|error`). -/
def toolCompletionStage (s : EPState) (part : Part)
    (toolCallId toolName : String) (status? : Option String) :
    EPState × Broadcasts :=
  let endKey := part.id ++ ":end"
  if status? == some "completed" || status? == some "error" then
    if !(s.sentToolEvents.contains endKey) then
      let result := jsOrStr (part.state.bind (·.output))
        (jsOrStr (part.state.bind (·.error)) " ")
      ({ s with
          sentToolEvents := addSent endKey s.sentToolEvents
          toolStates := updateAssoc toolCallId
            (fun st => { st with
              status := if status? == some "completed" then "completed" else "error"
              endEmitted := true }) s.toolStates
          runningToolWatch := eraseAssoc toolCallId s.runningToolWatch },
       [.toolEnd part.id toolCallId toolName result 0])
    else (s, [])
  else (s, [])

/-- `EventProcessor.handleToolPart`: assistant-message creation, then the
start/args, metadata and completion blocks in source order. -/
def handleToolPart (s : EPState) (now : Nat) (part : Part)
    (toolCallId toolName : String) : EPState × Broadcasts :=
  -- Ensure assistant message exists
  let c := ensureAssistantMessage s now part.messageID
  let args : List (String × String) := ((part.state.bind (·.input)).getD [])
  let status? := part.state.bind (·.status)
  let hasArgs := args.length > 0
  -- `this.currentAssistantMessageId || undefined`
  let msgId? :=
    if strTruthy c.1.currentAssistantMessageId then c.1.currentAssistantMessageId
    else none
  let st := toolStartStage c.1 now part toolCallId toolName msgId? args hasArgs
  let md := toolMetadataStage st.1 now part toolCallId toolName
  let cp := toolCompletionStage md.1 part toolCallId toolName status?
  (cp.1, c.2 ++ st.2 ++ md.2 ++ cp.2)

/-- `EventProcessor.handlePartUpdate`. -/
def handlePartUpdate (s : EPState) (now : Nat) (part? : Option Part)
    (delta? : Option String) : EPState × Broadcasts :=
  match part? with
  | none => (s, [])
  | some part =>
      if part.id == "" || part.messageID == "" || part.type == "" then (s, [])
      else if strTruthy s.openCodeSessionId && !(part.sessionID == s.openCodeSessionId) then
        (s, [])
      else if part.type == "text" then handleTextPart s now part delta?
      else
        match part.callID, part.tool with
        | some callId, some toolName =>
            if !(callId == "") && !(toolName == "") then
              handleToolPart s now part callId toolName
            else (s, [])
        | _, _ => (s, [])

/-- `EventProcessor.handleSessionError`. -/
def handleSessionError (s : EPState) (error? : Option ErrorVal) :
    EPState × Broadcasts :=
  if isAbortLikeOpenCodeError error? then (s, [])
  else
    let dataMessage? : Option String :=
      match error? with
      | some (.vobj _ _ dm) => dm
      | _ => none
    let name? : Option String :=
      match error? with
      | some (.vobj n _ _) => n
      | _ => none
    let errorMessage := jsOrStr dataMessage? (jsOrStr name? "Unknown error")
    (s, [.error errorMessage])

/-- The fire condition of one `runningToolWatch` entry in
`maybeBroadcastToolProgressHeartbeat` (neither `continue` taken). -/
def heartbeatFires (now : Nat) (w : Watch) : Bool :=
  !(now - w.lastUpdateAt < toolProgressHeartbeatMs) &&
  !(now - w.lastStatusBroadcastAt < toolProgressHeartbeatMs)

/-- The synthetic `status: running` message built for a silent tool. -/
def renderHeartbeat (now : Nat) (w : Watch) : ServerMessage :=
  let elapsedSeconds := Nat.max 1 ((now - w.startedAt) / 1000)
  let quietSeconds := Nat.max 1 ((now - w.lastUpdateAt) / 1000)
  .status "running"
    ("Working on " ++ w.toolName ++ " (" ++ toString elapsedSeconds ++
      "s elapsed, no update for " ++ toString quietSeconds ++ "s)")

/-- Body of the `for (const [toolCallId, watch] of this.runningToolWatch)`
loop: the (possibly updated) entry and the optional broadcast. -/
def heartbeatStep (now : Nat) (p : String × Watch) :
    (String × Watch) × Option ServerMessage :=
  if heartbeatFires now p.2 then
    ((p.1, { p.2 with lastStatusBroadcastAt := now }),
     some (renderHeartbeat now p.2))
  else (p, none)

/-- `EventProcessor.maybeBroadcastToolProgressHeartbeat`. -/
def maybeBroadcastToolProgressHeartbeat (s : EPState) (now : Nat) :
    EPState × Broadcasts :=
  if s.runningToolWatch.length == 0 then (s, [])
  else
    let stepped := s.runningToolWatch.map (heartbeatStep now)
    ({ s with runningToolWatch := stepped.map Prod.fst },
     stepped.filterMap Prod.snd)

/-- `EventProcessor.process` without the leading heartbeat probe:
the `switch (event.type)` dispatch. -/
def dispatch (s : EPState) (now : Nat) (event : OpenCodeEvent) :
    EPState × Broadcasts :=
  match event with
  | .serverConnected => (s, [])
  | .serverHeartbeat => (s, [])
  | .messageUpdated info => handleMessageUpdate s now info
  | .messagePartUpdated part delta => handlePartUpdate s now part delta
  | .sessionIdle => completeCurrentMessage s
  | .sessionStatus statusType =>
      if statusType == some "idle" then completeCurrentMessage s else (s, [])
  | .sessionError e => handleSessionError s e
  | .unknownEvent _ => (s, [])

/-- `EventProcessor.process`: heartbeat probe first, then the event switch. -/
def process (s : EPState) (now : Nat) (event : OpenCodeEvent) :
    EPState × Broadcasts :=
  let hb := maybeBroadcastToolProgressHeartbeat s now
  let d := dispatch hb.1 now event
  (d.1, hb.2 ++ d.2)

/-- Process a timed sequence of events, concatenating the broadcasts. -/
def processTrace (s : EPState) : List (Nat × OpenCodeEvent) → EPState × Broadcasts
  | [] => (s, [])
  | (now, e) :: rest =>
      let r := process s now e
      let r' := processTrace r.1 rest
      (r'.1, r.2 ++ r'.2)

end EventProcessor

/-! ## VPS sandbox provider (`VPSProvider`)

The provider's effectful collaborators — the pooled SSH connection, the
`createSandbox` container bring-up and the `resolveTunnels` port lookup — are
abstracted as oracle outcomes in `VpsEnv`; the control flow of
`ensureSandbox`, `checkSandboxes` and `execCommand` is translated from the
source. `shellEscape` lives in `../sandbox` (not part of the sources under
verification), so it is passed in as an arbitrary escaping function `esc`. -/

namespace VPSProvider

/-- `node-ssh`'s `execCommand` result: `code` can be `null`. -/
structure SshExecResult where
  code : Option Int
  stdout : String
  stderr : String

/-- `CreateSandboxResult` as returned by `VPSProvider.createSandbox`. -/
structure CreateSandboxResult where
  sandboxId : String
  tunnelUrl : String
  previewUrl : String
  expiresAt : Nat
deriving Repr, DecidableEq

/-- `SandboxProviderError` (the typed error thrown by provider operations). -/
structure SandboxProviderError where
  operation : String
  message : String
  isRetryable : Bool
deriving Repr, DecidableEq

/-- `EnsureSandboxResult`: the recovered branch of `ensureSandbox` carries no
`expiresAt`, so the field is optional. -/
structure EnsureSandboxResult where
  sandboxId : String
  tunnelUrl : String
  previewUrl : String
  expiresAt : Option Nat
  recovered : Bool
deriving Repr, DecidableEq

/-- Oracle outcomes of the provider's effectful collaborators during one
`ensureSandbox`/`execCommand` call. -/
structure VpsEnv where
  /-- stdout of `docker ps --filter "status=running" --format "{{.ID}}"`. -/
  dockerPsStdout : String
  /-- `resolveTunnels` outcome per sandbox id: `(openCodeUrl, previewUrl)`. -/
  tunnels : String → String × String
  /-- Outcome of `createSandbox(opts)`: a result or a thrown provider error. -/
  createSandbox : Except SandboxProviderError CreateSandboxResult
  /-- `ssh.execCommand` on the pooled connection. -/
  sshExec : String → SshExecResult

/-- `VPSProvider.checkSandboxes`: split the `docker ps` output into running
container ids and keep the sandbox ids some running id starts with. -/
def checkSandboxes (dockerPsStdout : String) (sandboxIds : List String) :
    List String :=
  let runningIds := (strSplitLines (jsTrim dockerPsStdout)).filter (fun l => !(l == ""))
  sandboxIds.filter (fun id => runningIds.any (fun rid => strIsPrefixOf id rid))

/-- The `createSandbox` fall-through of `ensureSandbox`:
`{ ...result, recovered: false }`. -/
def ensureViaCreate (env : VpsEnv) :
    Except SandboxProviderError EnsureSandboxResult :=
  env.createSandbox.map (fun r =>
    { sandboxId := r.sandboxId, tunnelUrl := r.tunnelUrl,
      previewUrl := r.previewUrl, expiresAt := some r.expiresAt,
      recovered := false })

/-- `VPSProvider.ensureSandbox`: recover the current sandbox when the
liveness probe reports it alive, otherwise create a new one. -/
def ensureSandbox (env : VpsEnv) (currentSandboxId : Option String) :
    Except SandboxProviderError EnsureSandboxResult :=
  match currentSandboxId with
  | some cur =>
      -- `if (opts.currentSandboxId)`: JS truthiness, `""` falls through
      if !(cur == "") then
        if (checkSandboxes env.dockerPsStdout [cur]).length > 0 then
          let t := env.tunnels cur
          .ok { sandboxId := cur, tunnelUrl := t.1, previewUrl := t.2,
                expiresAt := none, recovered := true }
        else ensureViaCreate env
      else ensureViaCreate env
  | none => ensureViaCreate env

/-- `execCommand` options (`cwd`, `timeoutMs = 30000`, `env`). -/
structure ExecOpts where
  cwd : Option String
  timeoutMs : Option Nat
  env : Option (List (String × String))

/-- The record `execCommand` resolves to. -/
structure ExecResult where
  stdout : String
  stderr : String
  exitCode : Int
deriving Repr, DecidableEq

/-- The shell command string `execCommand` hands to `ssh.execCommand`. -/
def execCommandString (esc : String → String) (sandboxId : String)
    (argv : List String) (opts : Option ExecOpts) : String :=
  let cwd := opts.bind (·.cwd)
  let timeoutMs := (opts.bind (·.timeoutMs)).getD 30000
  let cmdEnv := opts.bind (·.env)
  let envVars :=
    match cmdEnv with
    | some kvs =>
        String.intercalate " " (kvs.map (fun kv => esc kv.1 ++ "=" ++ esc kv.2))
    | none => ""
  let cwdFlag :=
    match cwd with
    | some c => if c == "" then "" else "cd " ++ c ++ " && "
    | none => ""
  let timeoutFlag :=
    if !(timeoutMs == 0) then
      "timeout " ++ toString ((timeoutMs + 999) / 1000) ++ "s "
    else ""
  let cmd := String.intercalate " " (argv.map esc)
  "docker exec " ++ sandboxId ++ " sh -c '" ++ cwdFlag ++ envVars ++ " " ++
    timeoutFlag ++ cmd ++ "'"

/-- `VPSProvider.execCommand`: run the command over SSH and package the
result, mapping a missing exit code to `-1`; no failure path. -/
def execCommand (env : VpsEnv) (esc : String → String) (sandboxId : String)
    (argv : List String) (opts : Option ExecOpts) : ExecResult :=
  let result := env.sshExec (execCommandString esc sandboxId argv opts)
  { stdout := result.stdout, stderr := result.stderr,
    exitCode := result.code.getD (-1) }

end VPSProvider

/-! ## Broadcast classifiers -/

/-- Is this broadcast a `message` event? -/
def ServerMessage.isMessageEvt : ServerMessage → Bool
  | .message _ _ _ _ _ => true
  | _ => false

/-- Is this broadcast a `message_complete` event? -/
def ServerMessage.isMessageCompleteEvt : ServerMessage → Bool
  | .messageComplete _ => true
  | _ => false

/-- Is this broadcast a `tool_start` event? -/
def ServerMessage.isToolStartEvt : ServerMessage → Bool
  | .toolStart _ _ _ _ _ => true
  | _ => false

/-- Is this broadcast a `tool_end` event? -/
def ServerMessage.isToolEndEvt : ServerMessage → Bool
  | .toolEnd _ _ _ _ _ => true
  | _ => false

/-- Is this broadcast a `tool_end` event for the given part id? -/
def ServerMessage.isToolEndFor (partId : String) : ServerMessage → Bool
  | .toolEnd p _ _ _ _ => p == partId
  | _ => false

/-- Is this broadcast an `error` event? -/
def ServerMessage.isErrorEvt : ServerMessage → Bool
  | .error _ => true
  | _ => false

/-- Is this broadcast a `status` event? -/
def ServerMessage.isStatusEvt : ServerMessage → Bool
  | .status _ _ => true
  | _ => false

/-- Is this broadcast a `token` event? -/
def ServerMessage.isTokenEvt : ServerMessage → Bool
  | .token _ _ _ => true
  | _ => false

/-- Is this broadcast a `text_part_complete` event? -/
def ServerMessage.isTextPartCompleteEvt : ServerMessage → Bool
  | .textPartComplete _ _ _ => true
  | _ => false

/-! ## Heartbeat characterization lemmas -/

/-! ## Derived definitions used by the verification -/

namespace EventProcessor

/-- The state update the heartbeat loop applies to one watch entry. -/
def hbUpdate (now : Nat) (p : String × Watch) : String × Watch :=
  if heartbeatFires now p.2 then (p.1, { p.2 with lastStatusBroadcastAt := now })
  else p

/-- The guards a part must pass for `handlePartUpdate` to call
`handleToolPart` (only `part` and the constant `openCodeSessionId` matter). -/
def reachesToolHandler (s : EPState) (part : Part) : Bool :=
  !(part.id == "" || part.messageID == "" || part.type == "") &&
  !(strTruthy s.openCodeSessionId && !(part.sessionID == s.openCodeSessionId)) &&
  !(part.type == "text") &&
  (match part.callID, part.tool with
   | some c, some t => !(c == "") && !(t == "")
   | _, _ => false)

/-- The message ids an event carries (`info.id` / `part.messageID`). -/
def eventMsgIds : OpenCodeEvent → List String
  | .messageUpdated (some info) => info.id.toList
  | .messagePartUpdated (some part) _ => [part.messageID]
  | _ => []

/-- The assistant-message id a broadcast carries in its payload. -/
def broadcastAssistantIds : ServerMessage → List String
  | .message i _ _ _ _ => [i]
  | .token m _ _ => [m]
  | .textPartComplete m _ _ => [m]
  | .toolStart (some m) _ _ _ _ => [m]
  | .messageComplete m => [m]
  | _ => []

/-- The guards a part must pass for `handlePartUpdate` to call
`handleTextPart`. -/
def reachesTextHandler (s : EPState) (part : Part) : Bool :=
  !(part.id == "" || part.messageID == "" || part.type == "") &&
  !(strTruthy s.openCodeSessionId && !(part.sessionID == s.openCodeSessionId)) &&
  (part.type == "text")

/-- The one-slot invariant behind the "only once per turn" accounting:
whenever any tool state is tracked, the current-assistant-message slot is
non-null. Tool tracking only ever starts after `ensureAssistantMessage`
has filled the slot, and every path that clears the slot also clears the
tool states, so the processor maintains this invariant. -/
def invTS (s : EPState) : Prop :=
  s.toolStates ≠ [] → s.currentAssistantMessageId ≠ none

/-- After a heartbeat for tool `t` at time `n`, every watch entry for `t`
carries a timestamp at least `n`: its last heartbeat time
(`lastStatusBroadcastAt`) or, for an entry registered or refreshed later,
its `lastUpdateAt`. Firing again then forces the threshold to elapse past
`n`, since the fire condition measures silence from both timestamps. -/
abbrev watchWindowInv (t : String) (n : Nat)
    (l : List (String × Watch)) : Prop :=
  ∀ p ∈ l, p.1 = t →
    n ≤ p.2.lastStatusBroadcastAt ∨ n ≤ p.2.lastUpdateAt

end EventProcessor

/-! ## Shared concrete states for witnesses -/

open EventProcessor in
/-- The processor state right after construction / `resetForNewPrompt`. -/
def emptyState : EPState where
  openCodeSessionId := none
  currentAssistantMessageId := none
  currentOpenCodeUserMessageId := none
  toolStates := []
  runningToolWatch := []
  sentToolEvents := []

/-- A state with one tracked running tool that has been silent since `t = 0`. -/
def silentToolState : EPState :=
  { emptyState with
    toolStates := [("call1",
      { startEmitted := true, argsEmitted := false, endEmitted := false,
        status := "running" })]
    runningToolWatch := [("call1",
      { toolName := "bash", startedAt := 0, lastUpdateAt := 0,
        lastStatusBroadcastAt := 0 })]
    sentToolEvents := ["prt1:start"] }

/-- A tool part for the C1/C2 scenarios (`callID = call1`, tool `bash`). -/
def scenarioToolPart (status : String) (output : Option String) : Part where
  id := "prt1"
  messageID := "msgA"
  type := "tool"
  sessionID := none
  callID := some "call1"
  tool := some "bash"
  text := none
  state := some
    { status := some status, input := some [("cmd", "ls")], output := output,
      error := none, title := none, metadata := none }

/-- An assistant `message.updated` info for the scenarios. -/
def scenarioAssistantInfo : MessageInfo where
  id := some "msgA"
  role := some "assistant"
  sessionID := none
  sessionId := none
  error := none
  timeCompleted := none

/-- The reordered turn of C1: assistant message, running tool, an early idle,
the tool completion, then two more idle events. -/
def reorderedTurnEvents : List (Nat × OpenCodeEvent) :=
  [(0, .messageUpdated (some scenarioAssistantInfo)),
   (1, .messagePartUpdated (some (scenarioToolPart "running" none)) none),
   (2, .sessionIdle),
   (3, .messagePartUpdated (some (scenarioToolPart "completed" (some "ok"))) none),
   (4, .sessionIdle),
   (5, .sessionIdle)]

/-- A state holding a completed tool and a current assistant message,
ready to emit `message_complete` on idle. -/
def completedToolState : EPState :=
  { emptyState with
    currentAssistantMessageId := some "msgA"
    toolStates := [("call1",
      { startEmitted := true, argsEmitted := true, endEmitted := true,
        status := "completed" })] }

/-- A state left over from a previous turn, holding a stale assistant id. -/
def stalePrevTurnState : EPState :=
  { emptyState with
    currentAssistantMessageId := some "staleId"
    currentOpenCodeUserMessageId := some "staleUser"
    toolStates := [("oldCall",
      { startEmitted := true, argsEmitted := true, endEmitted := true,
        status := "completed" })]
    runningToolWatch := [("oldCall",
      { toolName := "bash", startedAt := 0, lastUpdateAt := 0,
        lastStatusBroadcastAt := 0 })]
    sentToolEvents := ["oldPrt:start", "oldPrt:end"] }

open EventProcessor in
/-- A state whose tracked tool got its last heartbeat at `t = 15000` and
its last real update at `t = 0`. -/
def heartbeatWindowState : EPState :=
  { emptyState with
    runningToolWatch := [("call1",
      { toolName := "bash", startedAt := 0, lastUpdateAt := 0,
        lastStatusBroadcastAt := 15000 })] }

/-- A concrete collaborator environment for the VPS provider theorems. -/
def envW : VPSProvider.VpsEnv where
  dockerPsStdout := "abc12345\ndef67890\n"
  tunnels := fun _ => ("http://h:1", "http://h:2")
  createSandbox := .ok
    { sandboxId := "new1", tunnelUrl := "http://h:3",
      previewUrl := "http://h:4", expiresAt := 1000 }
  sshExec := fun _ => { code := some 7, stdout := "out", stderr := "err" }

namespace EventProcessor

theorem filterMap_snd_heartbeatStep (now : Nat) (l : List (String × Watch)) :
    (l.map (heartbeatStep now)).filterMap Prod.snd =
      (l.filter (fun p => heartbeatFires now p.2)).map
        (fun p => renderHeartbeat now p.2) := by
  induction l with
  | nil => rfl
  | cons p t ih =>
      by_cases h : heartbeatFires now p.2 <;>
        simp [heartbeatStep, h, ih, List.filter_cons]

theorem map_fst_heartbeatStep (now : Nat) (l : List (String × Watch)) :
    (l.map (heartbeatStep now)).map Prod.fst = l.map (hbUpdate now) := by
  induction l with
  | nil => rfl
  | cons p t ih =>
      by_cases h : heartbeatFires now p.2 <;>
        simp [heartbeatStep, hbUpdate, h, ih]

/-- Full characterization of `maybeBroadcastToolProgressHeartbeat`: each
firing watch entry gets `lastStatusBroadcastAt := now` and produces one
synthetic status broadcast. -/
theorem hb_spec (s : EPState) (now : Nat) :
    maybeBroadcastToolProgressHeartbeat s now =
      ({ s with runningToolWatch := s.runningToolWatch.map (hbUpdate now) },
       (s.runningToolWatch.filter (fun p => heartbeatFires now p.2)).map
         (fun p => renderHeartbeat now p.2)) := by
  obtain ⟨a, b, c, d, w, f⟩ := s
  unfold maybeBroadcastToolProgressHeartbeat
  split
  · rename_i h
    have hw : w = [] := List.length_eq_zero.mp (by simpa using h)
    subst hw
    rfl
  · simp only [filterMap_snd_heartbeatStep, map_fst_heartbeatStep]

theorem hb_all_status (s : EPState) (now : Nat) :
    ∀ b ∈ (maybeBroadcastToolProgressHeartbeat s now).2,
      ServerMessage.isStatusEvt b = true := by
  intro b hb
  rw [hb_spec] at hb
  simp only [List.mem_map] at hb
  obtain ⟨p, _, hp⟩ := hb
  subst hp
  rfl

theorem hb_countP_eq_zero (s : EPState) (now : Nat) (q : ServerMessage → Bool)
    (hq : ∀ st m, q (.status st m) = false) :
    (maybeBroadcastToolProgressHeartbeat s now).2.countP q = 0 := by
  refine List.countP_eq_zero.mpr (fun b hb => ?_)
  have := hb_all_status s now b hb
  cases b <;> simp_all [ServerMessage.isStatusEvt, hq]

/-- `process` unfolded: heartbeat first, then the event switch. -/
theorem process_eq (s : EPState) (now : Nat) (e : OpenCodeEvent) :
    process s now e =
      ((dispatch (maybeBroadcastToolProgressHeartbeat s now).1 now e).1,
       (maybeBroadcastToolProgressHeartbeat s now).2 ++
         (dispatch (maybeBroadcastToolProgressHeartbeat s now).1 now e).2) := rfl

/-- The heartbeat probe never changes any field but `runningToolWatch`. -/
theorem hb_state_fields (s : EPState) (now : Nat) :
    (maybeBroadcastToolProgressHeartbeat s now).1 =
      { s with runningToolWatch := s.runningToolWatch.map (hbUpdate now) } := by
  rw [hb_spec]

end EventProcessor

/-! ## Output-shape lemmas for the handlers -/

namespace EventProcessor

theorem mem_ensureAssistant (s : EPState) (now : Nat) (m : String) :
    ∀ b ∈ (ensureAssistantMessage s now m).2,
      b = .message m "assistant" "" false now := by
  intro b hb
  unfold ensureAssistantMessage at hb
  split at hb <;> simp_all

theorem ensureAssistant_fields (s : EPState) (now : Nat) (m : String) :
    (ensureAssistantMessage s now m).1.toolStates = s.toolStates ∧
    (ensureAssistantMessage s now m).1.runningToolWatch = s.runningToolWatch ∧
    (ensureAssistantMessage s now m).1.sentToolEvents = s.sentToolEvents ∧
    (ensureAssistantMessage s now m).1.currentOpenCodeUserMessageId =
      s.currentOpenCodeUserMessageId ∧
    (ensureAssistantMessage s now m).1.openCodeSessionId = s.openCodeSessionId := by
  unfold ensureAssistantMessage
  split <;> exact ⟨rfl, rfl, rfl, rfl, rfl⟩

theorem hasRunningTools_ensureAssistant (s : EPState) (now : Nat) (m : String) :
    hasRunningTools (ensureAssistantMessage s now m).1 = hasRunningTools s := by
  unfold hasRunningTools
  rw [(ensureAssistant_fields s now m).1]

theorem mem_messageErrorBroadcasts (e : Option ErrorVal) :
    ∀ b ∈ messageErrorBroadcasts e, ∃ m, b = .error m := by
  intro b hb
  unfold messageErrorBroadcasts at hb
  split at hb
  · split at hb <;> simp_all
  · simp at hb

theorem completeCurrentMessage_not_running (s : EPState) :
    ∀ b ∈ (completeCurrentMessage s).2, hasRunningTools s = false := by
  intro b hb
  unfold completeCurrentMessage at hb
  split at hb
  · simp at hb
  · split at hb
    · simp at hb
    · simp_all

theorem mem_completeCurrentMessage (s : EPState) :
    ∀ b ∈ (completeCurrentMessage s).2, ∃ m, b = .messageComplete m := by
  intro b hb
  unfold completeCurrentMessage at hb
  split at hb
  · simp at hb
  · split at hb
    · simp at hb
    · simp_all

theorem mem_toolStartStage (s : EPState) (now : Nat) (part : Part)
    (tc tn : String) (m? : Option String) (args : List (String × String))
    (ha : Bool) :
    ∀ b ∈ (toolStartStage s now part tc tn m? args ha).2,
      b = .toolStart m? part.id tc tn args := by
  intro b hb
  by_cases h1 : (part.id ++ ":start") ∈ s.sentToolEvents <;>
  by_cases h2 : (part.id ++ ":args") ∈ s.sentToolEvents <;>
  by_cases h3 : ha = true <;>
  simp [toolStartStage, h1, h2, h3] at hb <;>
  simp [hb]

theorem mem_toolMetadataStage (s : EPState) (now : Nat) (part : Part)
    (tc tn : String) :
    ∀ b ∈ (toolMetadataStage s now part tc tn).2,
      ∃ t sm, b = .toolMetadata tc tn t sm := by
  intro b hb
  simp only [toolMetadataStage] at hb
  split at hb
  · simp at hb
  · split at hb
    · simp at hb
      exact ⟨_, _, hb⟩
    · simp at hb

theorem mem_toolCompletionStage (s : EPState) (part : Part)
    (tc tn : String) (st? : Option String) :
    ∀ b ∈ (toolCompletionStage s part tc tn st?).2,
      ∃ r, b = .toolEnd part.id tc tn r 0 := by
  intro b hb
  simp only [toolCompletionStage] at hb
  split at hb
  · split at hb
    · simp at hb
      exact ⟨_, hb⟩
    · simp at hb
  · simp at hb

/-- Every broadcast of `handleToolPart` is a `message`, `tool_start`,
`tool_metadata` or `tool_end`; never `message_complete`, `token`,
`text_part_complete`, `error` or `status`. -/
theorem mem_handleToolPart (s : EPState) (now : Nat) (part : Part)
    (tc tn : String) :
    ∀ b ∈ (handleToolPart s now part tc tn).2,
      ServerMessage.isMessageCompleteEvt b = false ∧
      ServerMessage.isTokenEvt b = false ∧
      ServerMessage.isTextPartCompleteEvt b = false ∧
      ServerMessage.isErrorEvt b = false ∧
      ServerMessage.isStatusEvt b = false := by
  intro b hb
  simp only [handleToolPart, List.mem_append] at hb
  rcases hb with ((hb | hb) | hb) | hb
  · have := mem_ensureAssistant _ _ _ b hb
    subst this
    exact ⟨rfl, rfl, rfl, rfl, rfl⟩
  · have := mem_toolStartStage _ _ _ _ _ _ _ _ b hb
    subst this
    exact ⟨rfl, rfl, rfl, rfl, rfl⟩
  · obtain ⟨t, sm, h⟩ := mem_toolMetadataStage _ _ _ _ _ b hb
    subst h
    exact ⟨rfl, rfl, rfl, rfl, rfl⟩
  · obtain ⟨r, h⟩ := mem_toolCompletionStage _ _ _ _ _ b hb
    subst h
    exact ⟨rfl, rfl, rfl, rfl, rfl⟩

/-- Every broadcast of `handleTextPart` is a `message`, `token` or
`text_part_complete`. -/
theorem mem_handleTextPart (s : EPState) (now : Nat) (part : Part)
    (d? : Option String) :
    ∀ b ∈ (handleTextPart s now part d?).2,
      ServerMessage.isMessageCompleteEvt b = false ∧
      ServerMessage.isErrorEvt b = false ∧
      ServerMessage.isToolStartEvt b = false ∧
      ServerMessage.isToolEndEvt b = false ∧
      ServerMessage.isStatusEvt b = false := by
  intro b hb
  have hfin : ∀ bb ∈ (ensureAssistantMessage (trackUserMessage s part.messageID)
      now part.messageID).2,
      bb.isMessageCompleteEvt = false ∧ bb.isErrorEvt = false ∧
      bb.isToolStartEvt = false ∧ bb.isToolEndEvt = false ∧
      bb.isStatusEvt = false := by
    intro bb hbb
    have := mem_ensureAssistant _ _ _ bb hbb
    subst this
    exact ⟨rfl, rfl, rfl, rfl, rfl⟩
  by_cases h1 : ((trackUserMessage s part.messageID).currentOpenCodeUserMessageId
      == some part.messageID) = true <;>
  by_cases h2 : strTruthy d? = true <;>
  by_cases h3 : strTruthy part.text = true <;>
  simp only [handleTextPart, h1, h2, h3, if_true, if_false,
    Bool.false_eq_true, ite_false, ite_true] at hb <;>
  (try simp at hb) <;>
  first
  | exact hfin b hb
  | (rcases hb with hb | hb
     · exact hfin b hb
     · subst hb
       exact ⟨rfl, rfl, rfl, rfl, rfl⟩)

theorem mem_handlePartUpdate (s : EPState) (now : Nat) (p? : Option Part)
    (d? : Option String) :
    ∀ b ∈ (handlePartUpdate s now p? d?).2,
      ServerMessage.isMessageCompleteEvt b = false ∧
      ServerMessage.isErrorEvt b = false ∧
      ServerMessage.isStatusEvt b = false := by
  intro b hb
  unfold handlePartUpdate at hb
  split at hb
  · simp at hb
  · split at hb
    · simp at hb
    · split at hb
      · simp at hb
      · split at hb
        · have := mem_handleTextPart _ _ _ _ b hb
          exact ⟨this.1, this.2.1, this.2.2.2.2⟩
        · split at hb
          · split at hb
            · have := mem_handleToolPart _ _ _ _ _ b hb
              exact ⟨this.1, this.2.2.2.1, this.2.2.2.2⟩
            · simp at hb
          · simp at hb

theorem mem_handleSessionError (s : EPState) (e : Option ErrorVal) :
    ∀ b ∈ (handleSessionError s e).2, ∃ m, b = .error m := by
  intro b hb
  unfold handleSessionError at hb
  split at hb <;> simp_all

/-- `message_complete` can only leave `handleMessageUpdate` through
`completeCurrentMessage`, which refuses to run while a tool is running. -/
theorem mem_handleMessageUpdate_mc (s : EPState) (now : Nat)
    (info? : Option MessageInfo) :
    ∀ b ∈ (handleMessageUpdate s now info?).2,
      ServerMessage.isMessageCompleteEvt b = true → hasRunningTools s = false := by
  intro b hb hmc
  simp only [handleMessageUpdate] at hb
  split at hb
  · simp at hb
  · split at hb
    · split at hb
      · simp at hb
      · split at hb
        · simp at hb
        · split at hb
          · split at hb <;> simp at hb
          · split at hb
            · simp at hb
            · split at hb
              · -- stale assistant id: only the creation broadcast
                have := mem_ensureAssistant _ _ _ b hb
                subst this
                simp [ServerMessage.isMessageCompleteEvt] at hmc
              · split at hb
                · -- completed: creation ++ error ++ completeCurrentMessage
                  rcases List.mem_append.mp hb with hb | hb
                  · rcases List.mem_append.mp hb with hb | hb
                    · have := mem_ensureAssistant _ _ _ b hb
                      subst this
                      simp [ServerMessage.isMessageCompleteEvt] at hmc
                    · obtain ⟨m, h⟩ := mem_messageErrorBroadcasts _ b hb
                      subst h
                      simp [ServerMessage.isMessageCompleteEvt] at hmc
                  · have h := completeCurrentMessage_not_running _ b hb
                    rwa [hasRunningTools_ensureAssistant] at h
                · rcases List.mem_append.mp hb with hb | hb
                  · have := mem_ensureAssistant _ _ _ b hb
                    subst this
                    simp [ServerMessage.isMessageCompleteEvt] at hmc
                  · obtain ⟨m, h⟩ := mem_messageErrorBroadcasts _ b hb
                    subst h
                    simp [ServerMessage.isMessageCompleteEvt] at hmc
    · simp at hb

theorem mem_addSent_iff (k x : String) (l : List String) :
    x ∈ addSent k l ↔ x ∈ l ∨ x = k := by
  unfold addSent
  split
  · rename_i h
    have hk : k ∈ l := by simpa using h
    constructor
    · exact Or.inl
    · rintro (hx | rfl)
      · exact hx
      · exact hk
  · simp

theorem mem_addSent_self (k : String) (l : List String) : k ∈ addSent k l :=
  (mem_addSent_iff k k l).mpr (Or.inr rfl)

theorem mem_addSent_of_mem {x : String} {l : List String} (k : String)
    (h : x ∈ l) : x ∈ addSent k l :=
  (mem_addSent_iff k x l).mpr (Or.inl h)

theorem strData_append (a b : String) : (a ++ b).data = a.data ++ b.data := rfl

theorem strAppend_left_cancel {p a b : String} (h : p ++ a = p ++ b) : a = b := by
  have h2 : p.data ++ a.data = p.data ++ b.data := by
    have := congrArg String.data h
    rwa [strData_append, strData_append] at this
  exact congrArg String.mk (List.append_cancel_left h2)

theorem startKey_ne_endKey (pid : String) : pid ++ ":start" ≠ pid ++ ":end" := by
  intro h
  exact absurd (strAppend_left_cancel h) (by decide)

theorem argsKey_ne_endKey (pid : String) : pid ++ ":args" ≠ pid ++ ":end" := by
  intro h
  exact absurd (strAppend_left_cancel h) (by decide)

theorem summaryKey_ne_endKey (pid t sig : String) :
    pid ++ ":summary:" ++ t ++ ":" ++ sig ≠ pid ++ ":end" := by
  intro h
  have h2 := congrArg String.data h
  simp only [strData_append, List.append_assoc] at h2
  have h3 := List.append_cancel_left h2
  have h4 := congrArg List.length h3
  simp only [List.length_append] at h4
  have e9 : (":summary:" : String).data.length = 9 := rfl
  have e1 : (":" : String).data.length = 1 := rfl
  have e4 : (":end" : String).data.length = 4 := rfl
  rw [e9, e1, e4] at h4
  omega

/-! ### `toolStartStage` behavior -/

theorem toolStartStage_sent_mono {x : String} (s : EPState) (now : Nat)
    (part : Part) (tc tn : String) (m? : Option String)
    (args : List (String × String)) (ha : Bool)
    (hx : x ∈ s.sentToolEvents) :
    x ∈ (toolStartStage s now part tc tn m? args ha).1.sentToolEvents := by
  by_cases h1 : (part.id ++ ":start") ∈ s.sentToolEvents <;>
  by_cases h2 : (part.id ++ ":args") ∈ s.sentToolEvents <;>
  by_cases h3 : ha = true <;>
  simp [toolStartStage, h1, h2, h3] <;>
  simp [mem_addSent_iff, hx]

theorem toolStartStage_sent_from {x : String} (s : EPState) (now : Nat)
    (part : Part) (tc tn : String) (m? : Option String)
    (args : List (String × String)) (ha : Bool)
    (hx : x ∈ (toolStartStage s now part tc tn m? args ha).1.sentToolEvents) :
    x ∈ s.sentToolEvents ∨ x = part.id ++ ":start" ∨ x = part.id ++ ":args" := by
  by_cases h1 : (part.id ++ ":start") ∈ s.sentToolEvents <;>
  by_cases h2 : (part.id ++ ":args") ∈ s.sentToolEvents <;>
  by_cases h3 : ha = true <;>
  simp only [toolStartStage, h1, h2, h3] at hx <;>
  simp_all [mem_addSent_iff] <;>
  tauto

theorem toolStartStage_start_mem (s : EPState) (now : Nat) (part : Part)
    (tc tn : String) (m? : Option String) (args : List (String × String))
    (ha : Bool) :
    (part.id ++ ":start") ∈
      (toolStartStage s now part tc tn m? args ha).1.sentToolEvents := by
  by_cases h1 : (part.id ++ ":start") ∈ s.sentToolEvents <;>
  by_cases h2 : (part.id ++ ":args") ∈ s.sentToolEvents <;>
  by_cases h3 : ha = true <;>
  simp [toolStartStage, h1, h2, h3, mem_addSent_iff]

theorem toolStartStage_args_mem (s : EPState) (now : Nat) (part : Part)
    (tc tn : String) (m? : Option String) (args : List (String × String))
    (ha : Bool) (hha : ha = true) :
    (part.id ++ ":args") ∈
      (toolStartStage s now part tc tn m? args ha).1.sentToolEvents := by
  by_cases h1 : (part.id ++ ":start") ∈ s.sentToolEvents <;>
  by_cases h2 : (part.id ++ ":args") ∈ s.sentToolEvents <;>
  simp [toolStartStage, h1, h2, hha, mem_addSent_iff]

theorem toolStartStage_out_fresh (s : EPState) (now : Nat) (part : Part)
    (tc tn : String) (m? : Option String) (args : List (String × String))
    (ha : Bool) (h : (part.id ++ ":start") ∉ s.sentToolEvents) :
    (toolStartStage s now part tc tn m? args ha).2 =
      [.toolStart m? part.id tc tn args] := by
  simp [toolStartStage, h]

theorem toolStartStage_out_dup (s : EPState) (now : Nat) (part : Part)
    (tc tn : String) (m? : Option String) (args : List (String × String))
    (ha : Bool) (h1 : (part.id ++ ":start") ∈ s.sentToolEvents)
    (h2 : ha = true → (part.id ++ ":args") ∈ s.sentToolEvents) :
    toolStartStage s now part tc tn m? args ha = (s, []) := by
  by_cases h3 : ha = true
  · simp [toolStartStage, h1, h2 h3, h3]
  · simp [toolStartStage, h1, h3]

/-! ### `toolMetadataStage` behavior -/

theorem toolMetadataStage_sent_mono {x : String} (s : EPState) (now : Nat)
    (part : Part) (tc tn : String) (hx : x ∈ s.sentToolEvents) :
    x ∈ (toolMetadataStage s now part tc tn).1.sentToolEvents := by
  unfold toolMetadataStage
  split
  · exact hx
  · rename_i summary heq
    by_cases hk : s.sentToolEvents.contains (summaryKeyFor part summary) = true <;>
      simp only [hk, Bool.not_true, Bool.not_false, if_true, if_false,
        Bool.false_eq_true, ite_false, ite_true]
    · exact hx
    · exact mem_addSent_of_mem _ hx

theorem toolMetadataStage_sent_from {x : String} (s : EPState) (now : Nat)
    (part : Part) (tc tn : String)
    (hx : x ∈ (toolMetadataStage s now part tc tn).1.sentToolEvents) :
    x ∈ s.sentToolEvents ∨
      ∃ t sig, x = part.id ++ ":summary:" ++ t ++ ":" ++ sig := by
  unfold toolMetadataStage at hx
  split at hx
  · exact Or.inl hx
  · rename_i summary heq
    by_cases hk : s.sentToolEvents.contains (summaryKeyFor part summary) = true
    · simp only [hk, Bool.not_true, Bool.false_eq_true, ite_false] at hx
      exact Or.inl hx
    · simp only [eq_false_of_ne_true hk, Bool.not_false, ite_true] at hx
      rcases (mem_addSent_iff _ _ _).mp hx with hx | hx
      · exact Or.inl hx
      · exact Or.inr ⟨_, _, hx⟩

/-! ### `toolCompletionStage` behavior -/

theorem toolCompletionStage_sent_mono {x : String} (s : EPState) (part : Part)
    (tc tn : String) (st? : Option String) (hx : x ∈ s.sentToolEvents) :
    x ∈ (toolCompletionStage s part tc tn st?).1.sentToolEvents := by
  simp only [toolCompletionStage]
  split
  · split
    · exact mem_addSent_of_mem _ hx
    · exact hx
  · exact hx

theorem toolCompletionStage_out_done (s : EPState) (part : Part)
    (tc tn : String) (st? : Option String)
    (h : (part.id ++ ":end") ∈ s.sentToolEvents) :
    toolCompletionStage s part tc tn st? = (s, []) := by
  simp only [toolCompletionStage]
  split
  · simp [h]
  · rfl

theorem toolCompletionStage_not_completed (s : EPState) (part : Part)
    (tc tn : String) (st? : Option String)
    (h : (st? == some "completed" || st? == some "error") = false) :
    toolCompletionStage s part tc tn st? = (s, []) := by
  simp only [toolCompletionStage]
  split
  · rename_i hc
    rw [h] at hc
    exact absurd hc (by simp)
  · rfl

theorem toolCompletionStage_out_fresh (s : EPState) (part : Part)
    (tc tn : String) (st? : Option String)
    (hst : (st? == some "completed" || st? == some "error") = true)
    (h : (part.id ++ ":end") ∉ s.sentToolEvents) :
    (toolCompletionStage s part tc tn st?).2 =
      [.toolEnd part.id tc tn
        (jsOrStr (part.state.bind (·.output))
          (jsOrStr (part.state.bind (·.error)) " ")) 0] := by
  simp only [toolCompletionStage]
  split
  · simp [h]
  · rename_i hc
    exact absurd hst hc

theorem toolCompletionStage_end_mem (s : EPState) (part : Part)
    (tc tn : String) (st? : Option String)
    (hst : (st? == some "completed" || st? == some "error") = true) :
    (part.id ++ ":end") ∈ (toolCompletionStage s part tc tn st?).1.sentToolEvents := by
  simp only [toolCompletionStage]
  split
  · split
    · exact mem_addSent_self _ _
    · rename_i hs
      simpa using hs
  · rename_i hc
    exact absurd hst hc

/-! ### Field preservation: `openCodeSessionId` is read-only -/

theorem handleSessionError_state (s : EPState) (e? : Option ErrorVal) :
    (handleSessionError s e?).1 = s := by
  unfold handleSessionError
  split <;> rfl

theorem trackUserMessage_ocsid (s : EPState) (m : String) :
    (trackUserMessage s m).openCodeSessionId = s.openCodeSessionId := by
  unfold trackUserMessage
  split <;> rfl

theorem trackUserMessage_sent (s : EPState) (m : String) :
    (trackUserMessage s m).sentToolEvents = s.sentToolEvents := by
  unfold trackUserMessage
  split <;> rfl

theorem completeCurrentMessage_ocsid (s : EPState) :
    (completeCurrentMessage s).1.openCodeSessionId = s.openCodeSessionId := by
  unfold completeCurrentMessage
  split
  · rfl
  · split <;> rfl

theorem toolStartStage_ocsid (s : EPState) (now : Nat) (part : Part)
    (tc tn : String) (m? : Option String) (args : List (String × String))
    (ha : Bool) :
    (toolStartStage s now part tc tn m? args ha).1.openCodeSessionId =
      s.openCodeSessionId := by
  by_cases h1 : (part.id ++ ":start") ∈ s.sentToolEvents <;>
  by_cases h2 : (part.id ++ ":args") ∈ s.sentToolEvents <;>
  by_cases h3 : ha = true <;>
  simp [toolStartStage, h1, h2, h3]

theorem toolMetadataStage_ocsid (s : EPState) (now : Nat) (part : Part)
    (tc tn : String) :
    (toolMetadataStage s now part tc tn).1.openCodeSessionId =
      s.openCodeSessionId := by
  unfold toolMetadataStage
  split
  · rfl
  · rename_i summary heq
    by_cases hk : summaryKeyFor part summary ∈ s.sentToolEvents <;>
      simp [hk]

theorem toolCompletionStage_ocsid (s : EPState) (part : Part)
    (tc tn : String) (st? : Option String) :
    (toolCompletionStage s part tc tn st?).1.openCodeSessionId =
      s.openCodeSessionId := by
  simp only [toolCompletionStage]
  split
  · split <;> rfl
  · rfl

theorem handleToolPart_ocsid (s : EPState) (now : Nat) (part : Part)
    (tc tn : String) :
    (handleToolPart s now part tc tn).1.openCodeSessionId =
      s.openCodeSessionId := by
  simp only [handleToolPart]
  rw [toolCompletionStage_ocsid, toolMetadataStage_ocsid, toolStartStage_ocsid,
    (ensureAssistant_fields s now part.messageID).2.2.2.2]

theorem handleTextPart_ocsid (s : EPState) (now : Nat) (part : Part)
    (d? : Option String) :
    (handleTextPart s now part d?).1.openCodeSessionId = s.openCodeSessionId := by
  by_cases h1 : ((trackUserMessage s part.messageID).currentOpenCodeUserMessageId
      == some part.messageID) = true <;>
  by_cases h2 : strTruthy d? = true <;>
  by_cases h3 : strTruthy part.text = true <;>
  simp only [handleTextPart, h1, h2, h3, if_true, if_false,
    Bool.false_eq_true, ite_false, ite_true] <;>
  first
  | rw [(ensureAssistant_fields _ _ _).2.2.2.2, trackUserMessage_ocsid]
  | rw [trackUserMessage_ocsid]

theorem handleMessageUpdate_ocsid (s : EPState) (now : Nat)
    (info? : Option MessageInfo) :
    (handleMessageUpdate s now info?).1.openCodeSessionId =
      s.openCodeSessionId := by
  simp only [handleMessageUpdate]
  repeat' split <;> try rfl
  all_goals
    first
    | rw [(ensureAssistant_fields _ _ _).2.2.2.2]
    | rw [completeCurrentMessage_ocsid, (ensureAssistant_fields _ _ _).2.2.2.2]

theorem handlePartUpdate_ocsid (s : EPState) (now : Nat) (p? : Option Part)
    (d? : Option String) :
    (handlePartUpdate s now p? d?).1.openCodeSessionId = s.openCodeSessionId := by
  unfold handlePartUpdate
  repeat' split <;> try rfl
  all_goals first
  | rw [handleTextPart_ocsid]
  | rw [handleToolPart_ocsid]

theorem hb_ocsid (s : EPState) (now : Nat) :
    (maybeBroadcastToolProgressHeartbeat s now).1.openCodeSessionId =
      s.openCodeSessionId := by
  rw [hb_state_fields]

theorem hb_sent (s : EPState) (now : Nat) :
    (maybeBroadcastToolProgressHeartbeat s now).1.sentToolEvents =
      s.sentToolEvents := by
  rw [hb_state_fields]

theorem process_ocsid (s : EPState) (now : Nat) (e : OpenCodeEvent) :
    (process s now e).1.openCodeSessionId = s.openCodeSessionId := by
  rw [process_eq]
  cases e <;> simp only [dispatch] <;>
  first
  | rw [hb_ocsid]
  | rw [handleMessageUpdate_ocsid, hb_ocsid]
  | rw [handlePartUpdate_ocsid, hb_ocsid]
  | rw [completeCurrentMessage_ocsid, hb_ocsid]
  | rw [handleSessionError_state, hb_ocsid]
  | (split <;> first
      | rw [hb_ocsid]
      | rw [completeCurrentMessage_ocsid, hb_ocsid])

/-! ### Tool-event counting on `handleToolPart` -/

theorem countP_toolStart_ensure (s : EPState) (now : Nat) (m : String) :
    (ensureAssistantMessage s now m).2.countP ServerMessage.isToolStartEvt = 0 :=
  List.countP_eq_zero.mpr (fun b hb => by
    have := mem_ensureAssistant _ _ _ b hb
    subst this
    simp [ServerMessage.isToolStartEvt])

theorem countP_toolEnd_ensure (s : EPState) (now : Nat) (m : String) :
    (ensureAssistantMessage s now m).2.countP ServerMessage.isToolEndEvt = 0 :=
  List.countP_eq_zero.mpr (fun b hb => by
    have := mem_ensureAssistant _ _ _ b hb
    subst this
    simp [ServerMessage.isToolEndEvt])

theorem countP_toolStart_metadata (s : EPState) (now : Nat) (part : Part)
    (tc tn : String) :
    (toolMetadataStage s now part tc tn).2.countP ServerMessage.isToolStartEvt = 0 :=
  List.countP_eq_zero.mpr (fun b hb => by
    obtain ⟨t, sm, h⟩ := mem_toolMetadataStage _ _ _ _ _ b hb
    subst h
    simp [ServerMessage.isToolStartEvt])

theorem countP_toolEnd_metadata (s : EPState) (now : Nat) (part : Part)
    (tc tn : String) :
    (toolMetadataStage s now part tc tn).2.countP ServerMessage.isToolEndEvt = 0 :=
  List.countP_eq_zero.mpr (fun b hb => by
    obtain ⟨t, sm, h⟩ := mem_toolMetadataStage _ _ _ _ _ b hb
    subst h
    simp [ServerMessage.isToolEndEvt])

theorem countP_toolStart_completion (s : EPState) (part : Part)
    (tc tn : String) (st? : Option String) :
    (toolCompletionStage s part tc tn st?).2.countP ServerMessage.isToolStartEvt = 0 :=
  List.countP_eq_zero.mpr (fun b hb => by
    obtain ⟨r, h⟩ := mem_toolCompletionStage _ _ _ _ _ b hb
    subst h
    simp [ServerMessage.isToolStartEvt])

theorem countP_toolEnd_startStage (s : EPState) (now : Nat) (part : Part)
    (tc tn : String) (m? : Option String) (args : List (String × String))
    (ha : Bool) :
    (toolStartStage s now part tc tn m? args ha).2.countP
      ServerMessage.isToolEndEvt = 0 :=
  List.countP_eq_zero.mpr (fun b hb => by
    have := mem_toolStartStage _ _ _ _ _ _ _ _ b hb
    subst this
    simp [ServerMessage.isToolEndEvt])

theorem handleToolPart_countStart_fresh (s : EPState) (now : Nat) (part : Part)
    (tc tn : String) (h : (part.id ++ ":start") ∉ s.sentToolEvents) :
    (handleToolPart s now part tc tn).2.countP ServerMessage.isToolStartEvt = 1 := by
  have hensure : (ensureAssistantMessage s now part.messageID).1.sentToolEvents =
      s.sentToolEvents := (ensureAssistant_fields _ _ _).2.2.1
  simp only [handleToolPart, List.countP_append]
  rw [toolStartStage_out_fresh]
  · rw [countP_toolStart_ensure, countP_toolStart_metadata,
      countP_toolStart_completion]
    simp [ServerMessage.isToolStartEvt]
  · rw [hensure]
    exact h

theorem handleToolPart_countStart_dup (s : EPState) (now : Nat) (part : Part)
    (tc tn : String) (h1 : (part.id ++ ":start") ∈ s.sentToolEvents)
    (h2 : ((part.state.bind (·.input)).getD []).length > 0 →
      (part.id ++ ":args") ∈ s.sentToolEvents) :
    (handleToolPart s now part tc tn).2.countP ServerMessage.isToolStartEvt = 0 := by
  have hensure : (ensureAssistantMessage s now part.messageID).1.sentToolEvents =
      s.sentToolEvents := (ensureAssistant_fields _ _ _).2.2.1
  simp only [handleToolPart, List.countP_append]
  rw [toolStartStage_out_dup]
  · rw [countP_toolStart_ensure, countP_toolStart_metadata,
      countP_toolStart_completion]
    simp
  · rw [hensure]
    exact h1
  · intro hha
    rw [hensure]
    exact h2 (by simpa using hha)

theorem handleToolPart_countEnd_done (s : EPState) (now : Nat) (part : Part)
    (tc tn : String) (h : (part.id ++ ":end") ∈ s.sentToolEvents) :
    (handleToolPart s now part tc tn).2.countP ServerMessage.isToolEndEvt = 0 := by
  have hensure : (ensureAssistantMessage s now part.messageID).1.sentToolEvents =
      s.sentToolEvents := (ensureAssistant_fields _ _ _).2.2.1
  have h1 : (part.id ++ ":end") ∈
      (ensureAssistantMessage s now part.messageID).1.sentToolEvents := by
    rw [hensure]; exact h
  have h2 := toolStartStage_sent_mono _ now part tc tn
    (if strTruthy (ensureAssistantMessage s now part.messageID).1.currentAssistantMessageId
     then (ensureAssistantMessage s now part.messageID).1.currentAssistantMessageId
     else none)
    ((part.state.bind (·.input)).getD [])
    (decide (((part.state.bind (·.input)).getD []).length > 0)) h1
  have h3 := toolMetadataStage_sent_mono _ now part tc tn h2
  simp only [handleToolPart, List.countP_append]
  rw [toolCompletionStage_out_done _ _ _ _ _ h3]
  rw [countP_toolEnd_ensure, countP_toolEnd_metadata, countP_toolEnd_startStage]
  simp

theorem handleToolPart_countEnd_not_completed (s : EPState) (now : Nat)
    (part : Part) (tc tn : String)
    (h : (part.state.bind (·.status) == some "completed" ||
          part.state.bind (·.status) == some "error") = false) :
    (handleToolPart s now part tc tn).2.countP ServerMessage.isToolEndEvt = 0 := by
  simp only [handleToolPart, List.countP_append]
  rw [toolCompletionStage_not_completed _ _ _ _ _ h]
  rw [countP_toolEnd_ensure, countP_toolEnd_metadata, countP_toolEnd_startStage]
  simp

theorem handleToolPart_countEnd_fresh (s : EPState) (now : Nat) (part : Part)
    (tc tn : String)
    (hst : (part.state.bind (·.status) == some "completed" ||
            part.state.bind (·.status) == some "error") = true)
    (hend : (part.id ++ ":end") ∉ s.sentToolEvents) :
    (handleToolPart s now part tc tn).2.countP ServerMessage.isToolEndEvt = 1 := by
  have hensure : (ensureAssistantMessage s now part.messageID).1.sentToolEvents =
      s.sentToolEvents := (ensureAssistant_fields _ _ _).2.2.1
  simp only [handleToolPart, List.countP_append]
  rw [toolCompletionStage_out_fresh _ _ _ _ _ hst]
  · rw [countP_toolEnd_ensure, countP_toolEnd_metadata, countP_toolEnd_startStage]
    simp [ServerMessage.isToolEndEvt]
  · intro hmem
    rcases toolMetadataStage_sent_from _ _ _ _ _ hmem with hx | ⟨t, sig, hx⟩
    · rcases toolStartStage_sent_from _ _ _ _ _ _ _ _ hx with hy | hy | hy
      · rw [hensure] at hy
        exact hend hy
      · exact startKey_ne_endKey part.id hy.symm
      · exact argsKey_ne_endKey part.id hy.symm
    · exact summaryKey_ne_endKey part.id t sig hx.symm

/-! ### Key presence after `handleToolPart` -/

theorem handleToolPart_sent_mono {x : String} (s : EPState) (now : Nat)
    (part : Part) (tc tn : String) (hx : x ∈ s.sentToolEvents) :
    x ∈ (handleToolPart s now part tc tn).1.sentToolEvents := by
  have h1 : x ∈ (ensureAssistantMessage s now part.messageID).1.sentToolEvents := by
    rw [(ensureAssistant_fields _ _ _).2.2.1]; exact hx
  have h2 := toolStartStage_sent_mono _ now part tc tn
    (if strTruthy (ensureAssistantMessage s now part.messageID).1.currentAssistantMessageId
     then (ensureAssistantMessage s now part.messageID).1.currentAssistantMessageId
     else none)
    ((part.state.bind (·.input)).getD [])
    (decide (((part.state.bind (·.input)).getD []).length > 0)) h1
  have h3 := toolMetadataStage_sent_mono _ now part tc tn h2
  have h4 := toolCompletionStage_sent_mono _ part tc tn
    (part.state.bind (·.status)) h3
  simp only [handleToolPart]
  exact h4

theorem handleToolPart_start_mem (s : EPState) (now : Nat) (part : Part)
    (tc tn : String) :
    (part.id ++ ":start") ∈ (handleToolPart s now part tc tn).1.sentToolEvents := by
  have h2 := toolStartStage_start_mem
    (ensureAssistantMessage s now part.messageID).1 now part tc tn
    (if strTruthy (ensureAssistantMessage s now part.messageID).1.currentAssistantMessageId
     then (ensureAssistantMessage s now part.messageID).1.currentAssistantMessageId
     else none)
    ((part.state.bind (·.input)).getD [])
    (decide (((part.state.bind (·.input)).getD []).length > 0))
  have h3 := toolMetadataStage_sent_mono _ now part tc tn h2
  have h4 := toolCompletionStage_sent_mono _ part tc tn
    (part.state.bind (·.status)) h3
  simp only [handleToolPart]
  exact h4

theorem handleToolPart_args_mem (s : EPState) (now : Nat) (part : Part)
    (tc tn : String)
    (hha : ((part.state.bind (·.input)).getD []).length > 0) :
    (part.id ++ ":args") ∈ (handleToolPart s now part tc tn).1.sentToolEvents := by
  have h2 := toolStartStage_args_mem
    (ensureAssistantMessage s now part.messageID).1 now part tc tn
    (if strTruthy (ensureAssistantMessage s now part.messageID).1.currentAssistantMessageId
     then (ensureAssistantMessage s now part.messageID).1.currentAssistantMessageId
     else none)
    ((part.state.bind (·.input)).getD [])
    (decide (((part.state.bind (·.input)).getD []).length > 0))
    (by simpa using hha)
  have h3 := toolMetadataStage_sent_mono _ now part tc tn h2
  have h4 := toolCompletionStage_sent_mono _ part tc tn
    (part.state.bind (·.status)) h3
  simp only [handleToolPart]
  exact h4

theorem handleToolPart_end_mem (s : EPState) (now : Nat) (part : Part)
    (tc tn : String)
    (hst : (part.state.bind (·.status) == some "completed" ||
            part.state.bind (·.status) == some "error") = true) :
    (part.id ++ ":end") ∈ (handleToolPart s now part tc tn).1.sentToolEvents := by
  have h4 := toolCompletionStage_end_mem
    (toolMetadataStage (toolStartStage
        (ensureAssistantMessage s now part.messageID).1 now part tc tn
        (if strTruthy (ensureAssistantMessage s now part.messageID).1.currentAssistantMessageId
         then (ensureAssistantMessage s now part.messageID).1.currentAssistantMessageId
         else none)
        ((part.state.bind (·.input)).getD [])
        (decide (((part.state.bind (·.input)).getD []).length > 0))).1
      now part tc tn).1
    part tc tn (part.state.bind (·.status)) hst
  simp only [handleToolPart]
  exact h4

/-! ### Lifting to `handlePartUpdate` and `process` -/

theorem handlePartUpdate_eq_tool (s : EPState) (now : Nat) (part : Part)
    (d? : Option String) (h : reachesToolHandler s part = true) :
    handlePartUpdate s now (some part) d? =
      handleToolPart s now part (part.callID.getD "") (part.tool.getD "") := by
  rcases hc : part.callID with _ | c
  · exfalso
    unfold reachesToolHandler at h
    rw [hc] at h
    simp at h
  · rcases ht : part.tool with _ | t
    · exfalso
      unfold reachesToolHandler at h
      rw [hc, ht] at h
      simp at h
    · unfold reachesToolHandler at h
      rw [hc, ht] at h
      simp only [Bool.and_eq_true, Bool.not_eq_true'] at h
      obtain ⟨⟨⟨hg, hs⟩, hty⟩, hc1, hc2⟩ := h
      simp only [handlePartUpdate]
      rw [hg, hs, hty, hc, ht]
      simp [hc1, hc2]

theorem handlePartUpdate_not_tool_counts (s : EPState) (now : Nat) (part : Part)
    (d? : Option String) (h : reachesToolHandler s part = false) :
    (handlePartUpdate s now (some part) d?).2.countP
      ServerMessage.isToolStartEvt = 0 ∧
    (handlePartUpdate s now (some part) d?).2.countP
      ServerMessage.isToolEndEvt = 0 := by
  have htext : ∀ (s' : EPState),
      (handleTextPart s' now part d?).2.countP ServerMessage.isToolStartEvt = 0 ∧
      (handleTextPart s' now part d?).2.countP ServerMessage.isToolEndEvt = 0 := by
    intro s'
    constructor <;>
      refine List.countP_eq_zero.mpr (fun b hb => ?_) <;>
      have hm := mem_handleTextPart s' now part d? b hb <;>
      simp_all
  simp only [handlePartUpdate]
  split
  · exact ⟨rfl, rfl⟩
  · split
    · exact ⟨rfl, rfl⟩
    · split
      · exact htext s
      · split
        · split
          · exfalso
            rename_i c t hc2 ht2 hct
            unfold reachesToolHandler at h
            rw [hc2, ht2] at h
            simp_all
          · exact ⟨rfl, rfl⟩
        · exact ⟨rfl, rfl⟩

theorem process_partUpdated_eq (s : EPState) (now : Nat) (part? : Option Part)
    (d? : Option String) :
    process s now (.messagePartUpdated part? d?) =
      ((handlePartUpdate (maybeBroadcastToolProgressHeartbeat s now).1 now part? d?).1,
       (maybeBroadcastToolProgressHeartbeat s now).2 ++
         (handlePartUpdate (maybeBroadcastToolProgressHeartbeat s now).1 now part? d?).2) :=
  rfl

theorem hb_countP_toolStart (s : EPState) (now : Nat) :
    (maybeBroadcastToolProgressHeartbeat s now).2.countP
      ServerMessage.isToolStartEvt = 0 :=
  hb_countP_eq_zero s now _ (fun _ _ => rfl)

theorem hb_countP_toolEnd (s : EPState) (now : Nat) :
    (maybeBroadcastToolProgressHeartbeat s now).2.countP
      ServerMessage.isToolEndEvt = 0 :=
  hb_countP_eq_zero s now _ (fun _ _ => rfl)

theorem reach_congr {s s' : EPState} (part : Part)
    (h : s'.openCodeSessionId = s.openCodeSessionId) :
    reachesToolHandler s' part = reachesToolHandler s part := by
  unfold reachesToolHandler
  rw [h]

theorem handleTextPart_sent (s : EPState) (now : Nat) (part : Part)
    (d? : Option String) :
    (handleTextPart s now part d?).1.sentToolEvents = s.sentToolEvents := by
  by_cases h1 : ((trackUserMessage s part.messageID).currentOpenCodeUserMessageId
      == some part.messageID) = true <;>
  by_cases h2 : strTruthy d? = true <;>
  by_cases h3 : strTruthy part.text = true <;>
  simp only [handleTextPart, h1, h2, h3, if_true, if_false,
    Bool.false_eq_true, ite_false, ite_true] <;>
  first
  | rw [(ensureAssistant_fields _ _ _).2.2.1, trackUserMessage_sent]
  | rw [trackUserMessage_sent]

theorem handlePartUpdate_sent_mono {x : String} (s : EPState) (now : Nat)
    (p? : Option Part) (d? : Option String) (hx : x ∈ s.sentToolEvents) :
    x ∈ (handlePartUpdate s now p? d?).1.sentToolEvents := by
  cases p? with
  | none => exact hx
  | some part =>
      simp only [handlePartUpdate]
      split
      · exact hx
      · split
        · exact hx
        · split
          · rw [handleTextPart_sent]; exact hx
          · split
            · split
              · exact handleToolPart_sent_mono _ now part _ _ hx
              · exact hx
            · exact hx

/-- Redelivering a completed tool part once its `end` key is recorded emits
no further `tool_end`, and the key stays recorded. -/
theorem process_part_countEnd_done (s : EPState) (n : Nat) (part : Part)
    (d? : Option String) (h : (part.id ++ ":end") ∈ s.sentToolEvents) :
    (process s n (.messagePartUpdated (some part) d?)).2.countP
      ServerMessage.isToolEndEvt = 0 ∧
    (part.id ++ ":end") ∈
      (process s n (.messagePartUpdated (some part) d?)).1.sentToolEvents := by
  rw [process_partUpdated_eq]
  have hsent : (part.id ++ ":end") ∈
      (maybeBroadcastToolProgressHeartbeat s n).1.sentToolEvents := by
    rw [hb_sent]; exact h
  refine ⟨?_, handlePartUpdate_sent_mono _ n _ d? hsent⟩
  rw [List.countP_append, hb_countP_toolEnd]
  cases hr : reachesToolHandler (maybeBroadcastToolProgressHeartbeat s n).1 part
  · rw [(handlePartUpdate_not_tool_counts _ n part d? hr).2]
  · rw [handlePartUpdate_eq_tool _ n part d? hr,
      handleToolPart_countEnd_done _ n part _ _ hsent]

/-- Iterating the redelivery any number of times still emits nothing. -/
theorem process_part_trace_countEnd_zero (part : Part) (d? : Option String) :
    ∀ (times : List Nat) (s : EPState),
      (part.id ++ ":end") ∈ s.sentToolEvents →
      (processTrace s (times.map (fun t =>
        (t, OpenCodeEvent.messagePartUpdated (some part) d?)))).2.countP
        ServerMessage.isToolEndEvt = 0 := by
  intro times
  induction times with
  | nil => intro s _; rfl
  | cons t ts ih =>
      intro s h
      simp only [List.map_cons, processTrace, List.countP_append]
      rw [(process_part_countEnd_done s t part d? h).1,
        ih _ (process_part_countEnd_done s t part d? h).2]

/-! ### Assistant-message-id provenance (for reset isolation) -/

theorem hb_current (s : EPState) (now : Nat) :
    (maybeBroadcastToolProgressHeartbeat s now).1.currentAssistantMessageId =
      s.currentAssistantMessageId := by
  rw [hb_state_fields]

theorem hb_userId (s : EPState) (now : Nat) :
    (maybeBroadcastToolProgressHeartbeat s now).1.currentOpenCodeUserMessageId =
      s.currentOpenCodeUserMessageId := by
  rw [hb_state_fields]

theorem trackUserMessage_current (s : EPState) (m : String) :
    (trackUserMessage s m).currentAssistantMessageId =
      s.currentAssistantMessageId := by
  unfold trackUserMessage
  split <;> rfl

theorem ensure_current_eq (s : EPState) (now : Nat) (mid : String) :
    (ensureAssistantMessage s now mid).1.currentAssistantMessageId =
      some (s.currentAssistantMessageId.getD mid) := by
  unfold ensureAssistantMessage
  cases h : s.currentAssistantMessageId <;> simp [h]

theorem toolStartStage_current (s : EPState) (now : Nat) (part : Part)
    (tc tn : String) (m? : Option String) (args : List (String × String))
    (ha : Bool) :
    (toolStartStage s now part tc tn m? args ha).1.currentAssistantMessageId =
      s.currentAssistantMessageId := by
  by_cases h1 : (part.id ++ ":start") ∈ s.sentToolEvents <;>
  by_cases h2 : (part.id ++ ":args") ∈ s.sentToolEvents <;>
  by_cases h3 : ha = true <;>
  simp [toolStartStage, h1, h2, h3]

theorem toolMetadataStage_current (s : EPState) (now : Nat) (part : Part)
    (tc tn : String) :
    (toolMetadataStage s now part tc tn).1.currentAssistantMessageId =
      s.currentAssistantMessageId := by
  unfold toolMetadataStage
  split
  · rfl
  · rename_i summary heq
    by_cases hk : summaryKeyFor part summary ∈ s.sentToolEvents <;> simp [hk]

theorem toolCompletionStage_current (s : EPState) (part : Part)
    (tc tn : String) (st? : Option String) :
    (toolCompletionStage s part tc tn st?).1.currentAssistantMessageId =
      s.currentAssistantMessageId := by
  simp only [toolCompletionStage]
  split
  · split <;> rfl
  · rfl

theorem completeCurrentMessage_prov (s : EPState) :
    (∀ b ∈ (completeCurrentMessage s).2, ∀ m ∈ broadcastAssistantIds b,
      s.currentAssistantMessageId = some m) ∧
    (∀ m, (completeCurrentMessage s).1.currentAssistantMessageId = some m →
      s.currentAssistantMessageId = some m) := by
  unfold completeCurrentMessage
  split
  · exact ⟨fun b hb => by simp at hb, fun m h => h⟩
  · rename_i mid hmid
    split
    · exact ⟨fun b hb => by simp at hb, fun m h => h⟩
    · constructor
      · intro b hb m hm
        simp at hb
        subst hb
        simp [broadcastAssistantIds] at hm
        subst hm
        exact hmid
      · intro m h
        simp only at h
        split at h
        · simp at h
        · rw [hmid]
          exact h

/-- The id recorded by `ensureAssistantMessage` is the new message id or the
pre-existing one. -/
theorem ensure_current_cases (s : EPState) (now : Nat) (mid : String) :
    ∀ m, (ensureAssistantMessage s now mid).1.currentAssistantMessageId = some m →
      m = mid ∨ s.currentAssistantMessageId = some m := by
  intro m h
  rw [ensure_current_eq] at h
  cases hc : s.currentAssistantMessageId with
  | none =>
      rw [hc] at h
      simp at h
      exact Or.inl h.symm
  | some y =>
      rw [hc] at h
      simp at h
      exact Or.inr (by simp [h])

theorem ensure_out_ids (s : EPState) (now : Nat) (mid : String) :
    ∀ b ∈ (ensureAssistantMessage s now mid).2, ∀ m ∈ broadcastAssistantIds b,
      m = mid := by
  intro b hb m hm
  have := mem_ensureAssistant _ _ _ b hb
  subst this
  simpa [broadcastAssistantIds] using hm

theorem handleMessageUpdate_prov_out (s : EPState) (now : Nat)
    (info? : Option MessageInfo) :
    ∀ b ∈ (handleMessageUpdate s now info?).2, ∀ m ∈ broadcastAssistantIds b,
      m ∈ eventMsgIds (.messageUpdated info?) ∨
        s.currentAssistantMessageId = some m := by
  intro b hb m hm
  cases info? with
  | none => simp [handleMessageUpdate] at hb
  | some info =>
    rcases hid : info.id with _ | messageId <;>
      rcases hrole : info.role with _ | role <;>
      simp only [handleMessageUpdate, hid, hrole] at hb
    · simp at hb
    · simp at hb
    · simp at hb
    · have hids : eventMsgIds (.messageUpdated (some info)) = [messageId] := by
        simp [eventMsgIds, hid]
      split at hb
      · simp at hb
      · split at hb
        · simp at hb
        · split at hb
          · split at hb <;> simp at hb
          · split at hb
            · simp at hb
            · split at hb
              · have := ensure_out_ids s now messageId b hb m hm
                subst this
                exact Or.inl (by simp [hids])
              · split at hb
                · rcases List.mem_append.mp hb with hb | hb
                  · rcases List.mem_append.mp hb with hb | hb
                    · have := ensure_out_ids s now messageId b hb m hm
                      subst this
                      exact Or.inl (by simp [hids])
                    · obtain ⟨em, hem⟩ := mem_messageErrorBroadcasts _ b hb
                      subst hem
                      simp [broadcastAssistantIds] at hm
                  · have hcur := (completeCurrentMessage_prov _).1 b hb m hm
                    rcases ensure_current_cases s now messageId m hcur with h | h
                    · subst h
                      exact Or.inl (by simp [hids])
                    · exact Or.inr h
                · rcases List.mem_append.mp hb with hb | hb
                  · have := ensure_out_ids s now messageId b hb m hm
                    subst this
                    exact Or.inl (by simp [hids])
                  · obtain ⟨em, hem⟩ := mem_messageErrorBroadcasts _ b hb
                    subst hem
                    simp [broadcastAssistantIds] at hm

theorem handleMessageUpdate_prov_state (s : EPState) (now : Nat)
    (info? : Option MessageInfo) :
    ∀ m, (handleMessageUpdate s now info?).1.currentAssistantMessageId = some m →
      m ∈ eventMsgIds (.messageUpdated info?) ∨
        s.currentAssistantMessageId = some m := by
  intro m h
  cases info? with
  | none => exact Or.inr (by simpa [handleMessageUpdate] using h)
  | some info =>
    rcases hid : info.id with _ | messageId <;>
      rcases hrole : info.role with _ | role <;>
      simp only [handleMessageUpdate, hid, hrole] at h
    · exact Or.inr h
    · exact Or.inr h
    · exact Or.inr h
    · have hids : eventMsgIds (.messageUpdated (some info)) = [messageId] := by
        simp [eventMsgIds, hid]
      split at h
      · exact Or.inr h
      · split at h
        · exact Or.inr h
        · split at h
          · split at h
            · exact Or.inr h
            · exact Or.inr h
          · split at h
            · exact Or.inr h
            · split at h
              · rcases ensure_current_cases s now messageId m h with hx | hx
                · subst hx
                  exact Or.inl (by simp [hids])
                · exact Or.inr hx
              · split at h
                · have hcur := (completeCurrentMessage_prov _).2 m h
                  rcases ensure_current_cases s now messageId m hcur with hx | hx
                  · subst hx
                    exact Or.inl (by simp [hids])
                  · exact Or.inr hx
                · rcases ensure_current_cases s now messageId m h with hx | hx
                  · subst hx
                    exact Or.inl (by simp [hids])
                  · exact Or.inr hx

theorem handleTextPart_mid_cases (s : EPState) (now : Nat) (part : Part) :
    ∀ m, (ensureAssistantMessage (trackUserMessage s part.messageID) now
        part.messageID).1.currentAssistantMessageId.getD "" = m →
      m = part.messageID ∨ s.currentAssistantMessageId = some m := by
  intro m h
  rw [ensure_current_eq, trackUserMessage_current] at h
  cases hc : s.currentAssistantMessageId with
  | none =>
      rw [hc] at h
      simp at h
      exact Or.inl h.symm
  | some y =>
      rw [hc] at h
      simp at h
      exact Or.inr (by simp [h])

theorem handleTextPart_prov_out (s : EPState) (now : Nat) (part : Part)
    (d? : Option String) :
    ∀ b ∈ (handleTextPart s now part d?).2, ∀ m ∈ broadcastAssistantIds b,
      m = part.messageID ∨ s.currentAssistantMessageId = some m := by
  intro b hb m hm
  have hens : ∀ bb ∈ (ensureAssistantMessage (trackUserMessage s part.messageID)
      now part.messageID).2, ∀ mm ∈ broadcastAssistantIds bb,
      mm = part.messageID ∨ s.currentAssistantMessageId = some mm :=
    fun bb hbb mm hmm => Or.inl (ensure_out_ids _ _ _ bb hbb mm hmm)
  by_cases h1 : ((trackUserMessage s part.messageID).currentOpenCodeUserMessageId
      == some part.messageID) = true <;>
  by_cases h2 : strTruthy d? = true <;>
  by_cases h3 : strTruthy part.text = true <;>
  simp only [handleTextPart, h1, h2, h3, if_true, if_false,
    Bool.false_eq_true, ite_false, ite_true] at hb <;>
  (try simp only [List.mem_append] at hb) <;>
  first
  | exact absurd hb (List.not_mem_nil b)
  | exact hens b hb m hm
  | (rcases hb with hb | hb
     · exact hens b hb m hm
     · simp only [List.mem_singleton] at hb
       subst hb
       simp only [broadcastAssistantIds, List.mem_singleton] at hm
       exact handleTextPart_mid_cases s now part m hm.symm)

theorem handleTextPart_prov_state (s : EPState) (now : Nat) (part : Part)
    (d? : Option String) :
    ∀ m, (handleTextPart s now part d?).1.currentAssistantMessageId = some m →
      m = part.messageID ∨ s.currentAssistantMessageId = some m := by
  intro m h
  have hens : (ensureAssistantMessage (trackUserMessage s part.messageID) now
      part.messageID).1.currentAssistantMessageId = some m →
      m = part.messageID ∨ s.currentAssistantMessageId = some m := by
    intro hx
    rcases ensure_current_cases _ now part.messageID m hx with hy | hy
    · exact Or.inl hy
    · rw [trackUserMessage_current] at hy
      exact Or.inr hy
  by_cases h1 : ((trackUserMessage s part.messageID).currentOpenCodeUserMessageId
      == some part.messageID) = true <;>
  by_cases h2 : strTruthy d? = true <;>
  by_cases h3 : strTruthy part.text = true <;>
  simp only [handleTextPart, h1, h2, h3, if_true, if_false,
    Bool.false_eq_true, ite_false, ite_true] at h <;>
  first
  | exact hens h
  | exact Or.inr (by rw [← trackUserMessage_current s part.messageID]; exact h)

theorem handleToolPart_prov_out (s : EPState) (now : Nat) (part : Part)
    (tc tn : String) :
    ∀ b ∈ (handleToolPart s now part tc tn).2, ∀ m ∈ broadcastAssistantIds b,
      m = part.messageID ∨ s.currentAssistantMessageId = some m := by
  intro b hb m hm
  simp only [handleToolPart, List.mem_append] at hb
  rcases hb with ((hb | hb) | hb) | hb
  · exact Or.inl (ensure_out_ids _ _ _ b hb m hm)
  · have hbs := mem_toolStartStage _ _ _ _ _ _ _ _ b hb
    subst hbs
    cases hq : (if strTruthy (ensureAssistantMessage s now
          part.messageID).1.currentAssistantMessageId = true
        then (ensureAssistantMessage s now part.messageID).1.currentAssistantMessageId
        else none) with
    | none =>
        rw [hq] at hm
        simp [broadcastAssistantIds] at hm
    | some m0 =>
        rw [hq] at hm
        simp [broadcastAssistantIds] at hm
        have hcur : (ensureAssistantMessage s now
            part.messageID).1.currentAssistantMessageId = some m0 := by
          revert hq
          split
          · exact fun h => h
          · intro h
            simp at h
        have hres := ensure_current_cases s now part.messageID m0 hcur
        rw [hm]
        exact hres
  · obtain ⟨t, sm, h⟩ := mem_toolMetadataStage _ _ _ _ _ b hb
    subst h
    simp [broadcastAssistantIds] at hm
  · obtain ⟨r, h⟩ := mem_toolCompletionStage _ _ _ _ _ b hb
    subst h
    simp [broadcastAssistantIds] at hm

theorem handleToolPart_prov_state (s : EPState) (now : Nat) (part : Part)
    (tc tn : String) :
    ∀ m, (handleToolPart s now part tc tn).1.currentAssistantMessageId = some m →
      m = part.messageID ∨ s.currentAssistantMessageId = some m := by
  intro m h
  simp only [handleToolPart] at h
  rw [toolCompletionStage_current, toolMetadataStage_current,
    toolStartStage_current] at h
  exact ensure_current_cases s now part.messageID m h

theorem handlePartUpdate_prov_out (s : EPState) (now : Nat) (p? : Option Part)
    (d? : Option String) :
    ∀ b ∈ (handlePartUpdate s now p? d?).2, ∀ m ∈ broadcastAssistantIds b,
      m ∈ eventMsgIds (.messagePartUpdated p? d?) ∨
        s.currentAssistantMessageId = some m := by
  intro b hb m hm
  cases p? with
  | none => simp [handlePartUpdate] at hb
  | some part =>
      have hids : eventMsgIds (.messagePartUpdated (some part) d?) =
          [part.messageID] := rfl
      simp only [handlePartUpdate] at hb
      split at hb
      · simp at hb
      · split at hb
        · simp at hb
        · split at hb
          · rcases handleTextPart_prov_out s now part d? b hb m hm with h | h
            · exact Or.inl (by simp [hids, h])
            · exact Or.inr h
          · split at hb
            · split at hb
              · rcases handleToolPart_prov_out s now part _ _ b hb m hm with h | h
                · exact Or.inl (by simp [hids, h])
                · exact Or.inr h
              · simp at hb
            · simp at hb

theorem handlePartUpdate_prov_state (s : EPState) (now : Nat) (p? : Option Part)
    (d? : Option String) :
    ∀ m, (handlePartUpdate s now p? d?).1.currentAssistantMessageId = some m →
      m ∈ eventMsgIds (.messagePartUpdated p? d?) ∨
        s.currentAssistantMessageId = some m := by
  intro m h
  cases p? with
  | none => exact Or.inr h
  | some part =>
      have hids : eventMsgIds (.messagePartUpdated (some part) d?) =
          [part.messageID] := rfl
      simp only [handlePartUpdate] at h
      split at h
      · exact Or.inr h
      · split at h
        · exact Or.inr h
        · split at h
          · rcases handleTextPart_prov_state s now part d? m h with hx | hx
            · exact Or.inl (by simp [hids, hx])
            · exact Or.inr hx
          · split at h
            · split at h
              · rcases handleToolPart_prov_state s now part _ _ m h with hx | hx
                · exact Or.inl (by simp [hids, hx])
                · exact Or.inr hx
              · exact Or.inr h
            · exact Or.inr h

/-- Provenance of assistant-message ids: every id a broadcast carries, and
the id slot itself, comes from the processed event or the prior state. -/
theorem process_prov (s : EPState) (now : Nat) (e : OpenCodeEvent) :
    (∀ b ∈ (process s now e).2, ∀ m ∈ broadcastAssistantIds b,
      m ∈ eventMsgIds e ∨ s.currentAssistantMessageId = some m) ∧
    (∀ m, (process s now e).1.currentAssistantMessageId = some m →
      m ∈ eventMsgIds e ∨ s.currentAssistantMessageId = some m) := by
  have hbcur := hb_current s now
  constructor
  · intro b hb m hm
    rw [process_eq] at hb
    rcases List.mem_append.mp hb with hhb | hd
    · have := hb_all_status s now b hhb
      cases b <;> simp_all [ServerMessage.isStatusEvt, broadcastAssistantIds]
    · cases e with
      | serverConnected => simp [dispatch] at hd
      | serverHeartbeat => simp [dispatch] at hd
      | unknownEvent t => simp [dispatch] at hd
      | messageUpdated info =>
          simp only [dispatch] at hd
          rcases handleMessageUpdate_prov_out _ now info b hd m hm with h | h
          · exact Or.inl h
          · exact Or.inr (hbcur ▸ h)
      | messagePartUpdated p d =>
          simp only [dispatch] at hd
          rcases handlePartUpdate_prov_out _ now p d b hd m hm with h | h
          · exact Or.inl h
          · exact Or.inr (hbcur ▸ h)
      | sessionIdle =>
          simp only [dispatch] at hd
          have := (completeCurrentMessage_prov _).1 b hd m hm
          exact Or.inr (hbcur ▸ this)
      | sessionStatus st =>
          simp only [dispatch] at hd
          split at hd
          · have := (completeCurrentMessage_prov _).1 b hd m hm
            exact Or.inr (hbcur ▸ this)
          · simp at hd
      | sessionError err =>
          simp only [dispatch] at hd
          obtain ⟨em, hem⟩ := mem_handleSessionError _ err b hd
          subst hem
          simp [broadcastAssistantIds] at hm
  · intro m h
    rw [process_eq] at h
    cases e with
    | serverConnected => exact Or.inr (hbcur ▸ h)
    | serverHeartbeat => exact Or.inr (hbcur ▸ h)
    | unknownEvent t => exact Or.inr (hbcur ▸ h)
    | messageUpdated info =>
        simp only [dispatch] at h
        rcases handleMessageUpdate_prov_state _ now info m h with hx | hx
        · exact Or.inl hx
        · exact Or.inr (hbcur ▸ hx)
    | messagePartUpdated p d =>
        simp only [dispatch] at h
        rcases handlePartUpdate_prov_state _ now p d m h with hx | hx
        · exact Or.inl hx
        · exact Or.inr (hbcur ▸ hx)
    | sessionIdle =>
        simp only [dispatch] at h
        have := (completeCurrentMessage_prov _).2 m h
        exact Or.inr (hbcur ▸ this)
    | sessionStatus st =>
        simp only [dispatch] at h
        split at h
        · have := (completeCurrentMessage_prov _).2 m h
          exact Or.inr (hbcur ▸ this)
        · exact Or.inr (hbcur ▸ h)
    | sessionError err =>
        simp only [dispatch] at h
        rw [handleSessionError_state] at h
        exact Or.inr (hbcur ▸ h)

/-- Along any trace whose events never mention `M`, no broadcast carries `M`
and the assistant-id slot never becomes `M`. -/
theorem processTrace_no_stale_id (M : String) :
    ∀ (evs : List (Nat × OpenCodeEvent)) (s : EPState),
      s.currentAssistantMessageId ≠ some M →
      (∀ p ∈ evs, M ∉ eventMsgIds p.2) →
      ((∀ b ∈ (processTrace s evs).2, M ∉ broadcastAssistantIds b) ∧
       (processTrace s evs).1.currentAssistantMessageId ≠ some M) := by
  intro evs
  induction evs with
  | nil => exact fun s hs _ => ⟨fun b hb => by simp [processTrace] at hb, hs⟩
  | cons p ps ih =>
      intro s hs hev
      obtain ⟨n, e⟩ := p
      have hev1 : M ∉ eventMsgIds e := hev (n, e) (by simp)
      have hstep := process_prov s n e
      have hs1 : (process s n e).1.currentAssistantMessageId ≠ some M := by
        intro hx
        rcases hstep.2 M hx with h | h
        · exact hev1 h
        · exact hs h
      have hrest := ih (process s n e).1 hs1
        (fun q hq => hev q (by simp [hq]))
      constructor
      · intro b hb
        simp only [processTrace, List.mem_append] at hb
        rcases hb with hb | hb
        · intro hm
          rcases hstep.1 b hb M hm with h | h
          · exact hev1 h
          · exact hs h
        · exact hrest.1 b hb
      · simpa [processTrace] using hrest.2

/-! ### User-echo suppression helpers -/

theorem reachText_congr {s s' : EPState} (part : Part)
    (h : s'.openCodeSessionId = s.openCodeSessionId) :
    reachesTextHandler s' part = reachesTextHandler s part := by
  unfold reachesTextHandler
  rw [h]

theorem handlePartUpdate_eq_text (s : EPState) (now : Nat) (part : Part)
    (d? : Option String) (h : reachesTextHandler s part = true) :
    handlePartUpdate s now (some part) d? = handleTextPart s now part d? := by
  unfold reachesTextHandler at h
  simp only [Bool.and_eq_true, Bool.not_eq_true'] at h
  obtain ⟨⟨hg, hs⟩, hty⟩ := h
  simp only [handlePartUpdate]
  rw [hg, hs, hty]
  simp

theorem handleTextPart_first (s : EPState) (now : Nat) (part : Part)
    (d? : Option String) (h : s.currentOpenCodeUserMessageId = none) :
    handleTextPart s now part d? =
      ({ s with currentOpenCodeUserMessageId := some part.messageID }, []) := by
  unfold handleTextPart trackUserMessage
  rw [h]
  simp

theorem handleTextPart_suppressed (s : EPState) (now : Nat) (part : Part)
    (d? : Option String)
    (h : s.currentOpenCodeUserMessageId = some part.messageID) :
    handleTextPart s now part d? = (s, []) := by
  unfold handleTextPart trackUserMessage
  simp [h]

theorem handleMessageUpdate_user_record (s : EPState) (now : Nat)
    (info : MessageInfo) (u : String)
    (hnone : s.currentOpenCodeUserMessageId = none)
    (hid : info.id = some u) (hu : (u == "") = false)
    (hrole : info.role = some "user")
    (hdrop : (strTruthy s.openCodeSessionId &&
        strTruthy (info.sessionID <|> info.sessionId) &&
        !((info.sessionID <|> info.sessionId) == s.openCodeSessionId)) = false) :
    handleMessageUpdate s now (some info) =
      ({ s with currentOpenCodeUserMessageId := some u }, []) := by
  simp only [handleMessageUpdate, hid, hrole]
  rw [hu, hdrop, hnone]
  simp

theorem handlePartUpdate_no_text_counts (s : EPState) (now : Nat) (part : Part)
    (d? : Option String)
    (h : s.currentOpenCodeUserMessageId = some part.messageID) :
    (handlePartUpdate s now (some part) d?).2.countP
      ServerMessage.isTokenEvt = 0 ∧
    (handlePartUpdate s now (some part) d?).2.countP
      ServerMessage.isTextPartCompleteEvt = 0 := by
  have htool : ∀ (tc tn : String),
      (handleToolPart s now part tc tn).2.countP ServerMessage.isTokenEvt = 0 ∧
      (handleToolPart s now part tc tn).2.countP
        ServerMessage.isTextPartCompleteEvt = 0 := by
    intro tc tn
    constructor <;>
      refine List.countP_eq_zero.mpr (fun b hb => ?_) <;>
      have hm := mem_handleToolPart s now part tc tn b hb <;>
      simp_all
  simp only [handlePartUpdate]
  split
  · exact ⟨rfl, rfl⟩
  · split
    · exact ⟨rfl, rfl⟩
    · split
      · rw [handleTextPart_suppressed s now part d? h]
        exact ⟨rfl, rfl⟩
      · split
        · split
          · exact htool _ _
          · exact ⟨rfl, rfl⟩
        · exact ⟨rfl, rfl⟩

theorem hb_countP_token (s : EPState) (now : Nat) :
    (maybeBroadcastToolProgressHeartbeat s now).2.countP
      ServerMessage.isTokenEvt = 0 :=
  hb_countP_eq_zero s now _ (fun _ _ => rfl)

theorem hb_countP_tpc (s : EPState) (now : Nat) :
    (maybeBroadcastToolProgressHeartbeat s now).2.countP
      ServerMessage.isTextPartCompleteEvt = 0 :=
  hb_countP_eq_zero s now _ (fun _ _ => rfl)

end EventProcessor

/-! ## C3: the single current-assistant-message-id slot -/

namespace EventProcessor

theorem countMsg_ensure (s : EPState) (now : Nat) (m : String) :
    (ensureAssistantMessage s now m).2.countP ServerMessage.isMessageEvt =
      if s.currentAssistantMessageId = none then 1 else 0 := by
  unfold ensureAssistantMessage
  cases h : s.currentAssistantMessageId <;>
    simp [h, List.countP_cons, ServerMessage.isMessageEvt]

theorem ensure_current_ne (s : EPState) (now : Nat) (m : String) :
    (ensureAssistantMessage s now m).1.currentAssistantMessageId ≠ none := by
  rw [ensure_current_eq]
  simp

theorem countMsg_complete_zero (s : EPState) :
    (completeCurrentMessage s).2.countP ServerMessage.isMessageEvt = 0 := by
  refine List.countP_eq_zero.mpr (fun b hb => ?_)
  obtain ⟨m, hm⟩ := mem_completeCurrentMessage s b hb
  subst hm
  simp [ServerMessage.isMessageEvt]

theorem countMsg_msgErr_zero (e : Option ErrorVal) :
    (messageErrorBroadcasts e).countP ServerMessage.isMessageEvt = 0 := by
  refine List.countP_eq_zero.mpr (fun b hb => ?_)
  obtain ⟨m, hm⟩ := mem_messageErrorBroadcasts e b hb
  subst hm
  simp [ServerMessage.isMessageEvt]

theorem countMsg_sessionError_zero (s : EPState) (e : Option ErrorVal) :
    (handleSessionError s e).2.countP ServerMessage.isMessageEvt = 0 := by
  refine List.countP_eq_zero.mpr (fun b hb => ?_)
  obtain ⟨m, hm⟩ := mem_handleSessionError s e b hb
  subst hm
  simp [ServerMessage.isMessageEvt]

theorem complete_of_none (s : EPState)
    (h : s.currentAssistantMessageId = none) :
    completeCurrentMessage s = (s, []) := by
  unfold completeCurrentMessage
  rw [h]

theorem complete_current_of_nil (s : EPState) (h : s.toolStates = []) :
    (completeCurrentMessage s).1.currentAssistantMessageId =
      s.currentAssistantMessageId := by
  rcases hc : s.currentAssistantMessageId with _ | mid
  · rw [complete_of_none s hc]
    exact hc
  · simp only [completeCurrentMessage, hc]
    split
    · exact hc
    · simp [h]

theorem msgCount_complete (s : EPState) :
    (completeCurrentMessage s).2.countP ServerMessage.isMessageEvt =
      if s.currentAssistantMessageId = none ∧
         (completeCurrentMessage s).1.currentAssistantMessageId ≠ none
      then 1 else 0 := by
  rw [countMsg_complete_zero]
  by_cases hc : s.currentAssistantMessageId = none
  · rw [complete_of_none s hc]
    simp [hc]
  · simp [hc]

theorem msgCount_handleTextPart (s : EPState) (now : Nat) (part : Part)
    (d? : Option String) :
    (handleTextPart s now part d?).2.countP ServerMessage.isMessageEvt =
      if s.currentAssistantMessageId = none ∧
         (handleTextPart s now part d?).1.currentAssistantMessageId ≠ none
      then 1 else 0 := by
  by_cases h1 : ((trackUserMessage s part.messageID).currentOpenCodeUserMessageId
      == some part.messageID) = true <;>
  by_cases h2 : strTruthy d? = true <;>
  by_cases h3 : strTruthy part.text = true <;>
  simp only [handleTextPart, h1, h2, h3, if_true, if_false,
    Bool.false_eq_true, ite_false, ite_true] <;>
  simp [List.countP_append, List.countP_cons, countMsg_ensure,
    trackUserMessage_current, ensure_current_ne, ServerMessage.isMessageEvt]

theorem countMsg_startStage_zero (s : EPState) (now : Nat) (part : Part)
    (tc tn : String) (m? : Option String) (args : List (String × String))
    (ha : Bool) :
    (toolStartStage s now part tc tn m? args ha).2.countP
      ServerMessage.isMessageEvt = 0 := by
  refine List.countP_eq_zero.mpr (fun b hb => ?_)
  have h := mem_toolStartStage s now part tc tn m? args ha b hb
  subst h
  simp [ServerMessage.isMessageEvt]

theorem countMsg_metadataStage_zero (s : EPState) (now : Nat) (part : Part)
    (tc tn : String) :
    (toolMetadataStage s now part tc tn).2.countP
      ServerMessage.isMessageEvt = 0 := by
  refine List.countP_eq_zero.mpr (fun b hb => ?_)
  obtain ⟨t, sm, h⟩ := mem_toolMetadataStage s now part tc tn b hb
  subst h
  simp [ServerMessage.isMessageEvt]

theorem countMsg_completionStage_zero (s : EPState) (part : Part)
    (tc tn : String) (st? : Option String) :
    (toolCompletionStage s part tc tn st?).2.countP
      ServerMessage.isMessageEvt = 0 := by
  refine List.countP_eq_zero.mpr (fun b hb => ?_)
  obtain ⟨r, h⟩ := mem_toolCompletionStage s part tc tn st? b hb
  subst h
  simp [ServerMessage.isMessageEvt]

theorem handleToolPart_current_ne (s : EPState) (now : Nat) (part : Part)
    (tc tn : String) :
    (handleToolPart s now part tc tn).1.currentAssistantMessageId ≠ none := by
  simp only [handleToolPart]
  rw [toolCompletionStage_current, toolMetadataStage_current,
    toolStartStage_current]
  exact ensure_current_ne _ _ _

theorem msgCount_handleToolPart (s : EPState) (now : Nat) (part : Part)
    (tc tn : String) :
    (handleToolPart s now part tc tn).2.countP ServerMessage.isMessageEvt =
      if s.currentAssistantMessageId = none ∧
         (handleToolPart s now part tc tn).1.currentAssistantMessageId ≠ none
      then 1 else 0 := by
  have hcur := handleToolPart_current_ne s now part tc tn
  simp only [handleToolPart] at hcur ⊢
  rw [List.countP_append, List.countP_append, List.countP_append,
    countMsg_startStage_zero, countMsg_metadataStage_zero,
    countMsg_completionStage_zero, countMsg_ensure]
  simp [hcur]

theorem msgCount_handleMessageUpdate (s : EPState) (now : Nat)
    (info? : Option MessageInfo) (hinv : invTS s) :
    (handleMessageUpdate s now info?).2.countP ServerMessage.isMessageEvt =
      if s.currentAssistantMessageId = none ∧
         (handleMessageUpdate s now info?).1.currentAssistantMessageId ≠ none
      then 1 else 0 := by
  cases info? with
  | none => simp [handleMessageUpdate]
  | some info =>
    rcases hid : info.id with _ | messageId <;>
      rcases hrole : info.role with _ | role <;>
      simp only [handleMessageUpdate, hid, hrole]
    · simp
    · simp
    · simp
    · split
      · simp
      · split
        · simp
        · split
          · split <;> simp
          · split
            · simp
            · split
              · rw [countMsg_ensure]
                simp [ensure_current_ne]
              · split
                · rw [List.countP_append, List.countP_append,
                    countMsg_ensure, countMsg_msgErr_zero,
                    countMsg_complete_zero]
                  by_cases hc : s.currentAssistantMessageId = none
                  · have ht : s.toolStates = [] := by
                      by_contra hne
                      exact hinv hne hc
                    have ht₁ : (ensureAssistantMessage s now
                        messageId).1.toolStates = [] := by
                      rw [(ensureAssistant_fields s now messageId).1]
                      exact ht
                    have hcur : (completeCurrentMessage (ensureAssistantMessage
                        s now messageId).1).1.currentAssistantMessageId ≠
                        none := by
                      rw [complete_current_of_nil _ ht₁]
                      exact ensure_current_ne s now messageId
                    simp [hc, hcur]
                  · simp [hc]
                · rw [List.countP_append, countMsg_ensure, countMsg_msgErr_zero]
                  simp [ensure_current_ne]

theorem msgCount_handlePartUpdate (s : EPState) (now : Nat)
    (p? : Option Part) (d? : Option String) :
    (handlePartUpdate s now p? d?).2.countP ServerMessage.isMessageEvt =
      if s.currentAssistantMessageId = none ∧
         (handlePartUpdate s now p? d?).1.currentAssistantMessageId ≠ none
      then 1 else 0 := by
  unfold handlePartUpdate
  split
  · simp
  · split
    · simp
    · split
      · simp
      · split
        · exact msgCount_handleTextPart _ _ _ _
        · split
          · split
            · exact msgCount_handleToolPart _ _ _ _ _
            · simp
          · simp

theorem hb_countP_msg (s : EPState) (now : Nat) :
    (maybeBroadcastToolProgressHeartbeat s now).2.countP
      ServerMessage.isMessageEvt = 0 :=
  hb_countP_eq_zero s now _ (fun _ _ => rfl)

theorem hb_countP_mc (s : EPState) (now : Nat) :
    (maybeBroadcastToolProgressHeartbeat s now).2.countP
      ServerMessage.isMessageCompleteEvt = 0 :=
  hb_countP_eq_zero s now _ (fun _ _ => rfl)

theorem hb_toolStates (s : EPState) (now : Nat) :
    (maybeBroadcastToolProgressHeartbeat s now).1.toolStates = s.toolStates := by
  rw [hb_state_fields]

theorem invTS_hb (s : EPState) (now : Nat) (h : invTS s) :
    invTS (maybeBroadcastToolProgressHeartbeat s now).1 := by
  intro ht
  rw [hb_toolStates] at ht
  rw [hb_current]
  exact h ht

theorem invTS_ensure (s : EPState) (now : Nat) (m : String) :
    invTS (ensureAssistantMessage s now m).1 :=
  fun _ => ensure_current_ne s now m

theorem invTS_complete (s : EPState) (h : invTS s) :
    invTS (completeCurrentMessage s).1 := by
  rcases hc : s.currentAssistantMessageId with _ | mid
  · rw [complete_of_none s hc]
    exact h
  · simp only [completeCurrentMessage, hc]
    split
    · exact h
    · intro ht
      exact absurd rfl ht

theorem invTS_trackUser (s : EPState) (m : String) (h : invTS s) :
    invTS (trackUserMessage s m) := by
  unfold trackUserMessage
  split
  · exact h
  · exact h

theorem invTS_handleTextPart (s : EPState) (now : Nat) (part : Part)
    (d? : Option String) (h : invTS s) :
    invTS (handleTextPart s now part d?).1 := by
  by_cases h1 : ((trackUserMessage s part.messageID).currentOpenCodeUserMessageId
      == some part.messageID) = true <;>
  by_cases h2 : strTruthy d? = true <;>
  by_cases h3 : strTruthy part.text = true <;>
  simp only [handleTextPart, h1, h2, h3, if_true, if_false,
    Bool.false_eq_true, ite_false, ite_true] <;>
  first
  | exact invTS_trackUser s part.messageID h
  | exact invTS_ensure _ _ _

theorem invTS_handleToolPart (s : EPState) (now : Nat) (part : Part)
    (tc tn : String) :
    invTS (handleToolPart s now part tc tn).1 :=
  fun _ => handleToolPart_current_ne s now part tc tn

theorem invTS_handlePartUpdate (s : EPState) (now : Nat)
    (p? : Option Part) (d? : Option String) (h : invTS s) :
    invTS (handlePartUpdate s now p? d?).1 := by
  unfold handlePartUpdate
  split
  · exact h
  · split
    · exact h
    · split
      · exact h
      · split
        · exact invTS_handleTextPart _ _ _ _ h
        · split
          · split
            · exact invTS_handleToolPart _ _ _ _ _
            · exact h
          · exact h

theorem invTS_handleMessageUpdate (s : EPState) (now : Nat)
    (info? : Option MessageInfo) (h : invTS s) :
    invTS (handleMessageUpdate s now info?).1 := by
  cases info? with
  | none => exact h
  | some info =>
    rcases hid : info.id with _ | messageId <;>
      rcases hrole : info.role with _ | role <;>
      simp only [handleMessageUpdate, hid, hrole]
    · exact h
    · exact h
    · exact h
    · split
      · exact h
      · split
        · exact h
        · split
          · split
            · exact h
            · exact h
          · split
            · exact h
            · split
              · exact invTS_ensure _ _ _
              · split
                · exact invTS_complete _ (invTS_ensure _ _ _)
                · exact invTS_ensure _ _ _

theorem invTS_handleSessionError (s : EPState) (e : Option ErrorVal)
    (h : invTS s) : invTS (handleSessionError s e).1 := by
  rw [handleSessionError_state]
  exact h

theorem invTS_dispatch (s : EPState) (now : Nat) (e : OpenCodeEvent)
    (h : invTS s) : invTS (dispatch s now e).1 := by
  cases e with
  | serverConnected => exact h
  | serverHeartbeat => exact h
  | messageUpdated info? => exact invTS_handleMessageUpdate _ _ _ h
  | messagePartUpdated p? d? => exact invTS_handlePartUpdate _ _ _ _ h
  | sessionIdle => exact invTS_complete _ h
  | sessionStatus st =>
      simp only [dispatch]
      split
      · exact invTS_complete _ h
      · exact h
  | sessionError e? => exact invTS_handleSessionError _ _ h
  | unknownEvent d => exact h

theorem invTS_process (s : EPState) (now : Nat) (e : OpenCodeEvent)
    (h : invTS s) : invTS (process s now e).1 :=
  invTS_dispatch _ now e (invTS_hb s now h)

theorem msgCount_dispatch (s : EPState) (now : Nat) (e : OpenCodeEvent)
    (hinv : invTS s) :
    (dispatch s now e).2.countP ServerMessage.isMessageEvt =
      if s.currentAssistantMessageId = none ∧
         (dispatch s now e).1.currentAssistantMessageId ≠ none
      then 1 else 0 := by
  cases e with
  | serverConnected => simp [dispatch]
  | serverHeartbeat => simp [dispatch]
  | messageUpdated info? => exact msgCount_handleMessageUpdate s now info? hinv
  | messagePartUpdated p? d? => exact msgCount_handlePartUpdate s now p? d?
  | sessionIdle => exact msgCount_complete s
  | sessionStatus st =>
      simp only [dispatch]
      split
      · exact msgCount_complete s
      · simp
  | sessionError e? =>
      simp only [dispatch]
      rw [countMsg_sessionError_zero]
      simp [handleSessionError_state]
  | unknownEvent d => simp [dispatch]

theorem msgCount_process (s : EPState) (n : Nat) (e : OpenCodeEvent)
    (hinv : invTS s) :
    (process s n e).2.countP ServerMessage.isMessageEvt =
      if s.currentAssistantMessageId = none ∧
         (process s n e).1.currentAssistantMessageId ≠ none
      then 1 else 0 := by
  rw [process_eq]
  rw [List.countP_append, hb_countP_msg]
  rw [msgCount_dispatch _ n e (invTS_hb s n hinv)]
  rw [hb_current]
  simp

theorem ensure_current_keep {s : EPState} {m : String} (now : Nat)
    (mid : String) (hm : s.currentAssistantMessageId = some m) :
    (ensureAssistantMessage s now mid).1.currentAssistantMessageId = some m := by
  rw [ensure_current_eq, hm]
  rfl

theorem complete_keep {s : EPState} {m : String}
    (hm : s.currentAssistantMessageId = some m)
    (hnc : (completeCurrentMessage s).2.countP
      ServerMessage.isMessageCompleteEvt = 0) :
    (completeCurrentMessage s).1.currentAssistantMessageId = some m := by
  by_cases hr : hasRunningTools s = true
  · simp only [completeCurrentMessage, hm, hr, if_true]
  · exfalso
    simp only [completeCurrentMessage, hm, hr] at hnc
    simp [List.countP_cons, ServerMessage.isMessageCompleteEvt] at hnc

theorem handleTextPart_keep {s : EPState} {m : String} (now : Nat)
    (part : Part) (d? : Option String)
    (hm : s.currentAssistantMessageId = some m) :
    (handleTextPart s now part d?).1.currentAssistantMessageId = some m := by
  by_cases h1 : ((trackUserMessage s part.messageID).currentOpenCodeUserMessageId
      == some part.messageID) = true <;>
  by_cases h2 : strTruthy d? = true <;>
  by_cases h3 : strTruthy part.text = true <;>
  simp only [handleTextPart, h1, h2, h3, if_true, if_false,
    Bool.false_eq_true, ite_false, ite_true] <;>
  first
  | rw [trackUserMessage_current]; exact hm
  | exact ensure_current_keep now part.messageID
      ((trackUserMessage_current s part.messageID).trans hm)

theorem handleToolPart_keep {s : EPState} {m : String} (now : Nat)
    (part : Part) (tc tn : String)
    (hm : s.currentAssistantMessageId = some m) :
    (handleToolPart s now part tc tn).1.currentAssistantMessageId = some m := by
  simp only [handleToolPart]
  rw [toolCompletionStage_current, toolMetadataStage_current,
    toolStartStage_current]
  exact ensure_current_keep now part.messageID hm

theorem handlePartUpdate_keep {s : EPState} {m : String} (now : Nat)
    (p? : Option Part) (d? : Option String)
    (hm : s.currentAssistantMessageId = some m) :
    (handlePartUpdate s now p? d?).1.currentAssistantMessageId = some m := by
  unfold handlePartUpdate
  split
  · exact hm
  · split
    · exact hm
    · split
      · exact hm
      · split
        · exact handleTextPart_keep now _ _ hm
        · split
          · split
            · exact handleToolPart_keep now _ _ _ hm
            · exact hm
          · exact hm

theorem handleMessageUpdate_keep {s : EPState} {m : String} (now : Nat)
    (info? : Option MessageInfo)
    (hm : s.currentAssistantMessageId = some m)
    (hnc : (handleMessageUpdate s now info?).2.countP
      ServerMessage.isMessageCompleteEvt = 0) :
    (handleMessageUpdate s now info?).1.currentAssistantMessageId = some m := by
  cases info? with
  | none => exact hm
  | some info =>
    rcases hid : info.id with _ | messageId <;>
      rcases hrole : info.role with _ | role <;>
      simp only [handleMessageUpdate, hid, hrole]
    · exact hm
    · exact hm
    · exact hm
    · split
      · exact hm
      · split
        · exact hm
        · split
          · split
            · exact hm
            · exact hm
          · split
            · exact hm
            · split
              · exact ensure_current_keep now messageId hm
              · split
                · rename_i hg1 hg2 hg3 hg5 hg6 hg7
                  simp only [handleMessageUpdate, hid, hrole] at hnc
                  rw [if_neg hg1, if_neg hg2, if_neg hg3, if_neg hg5,
                    if_neg hg6, if_pos hg7] at hnc
                  rw [List.countP_append, List.countP_append] at hnc
                  have hz : (completeCurrentMessage (ensureAssistantMessage s now
                      messageId).1).2.countP
                      ServerMessage.isMessageCompleteEvt = 0 := by omega
                  exact complete_keep (ensure_current_keep now messageId hm) hz
                · exact ensure_current_keep now messageId hm

theorem dispatch_keep {s : EPState} {m : String} (now : Nat)
    (e : OpenCodeEvent)
    (hm : s.currentAssistantMessageId = some m)
    (hnc : (dispatch s now e).2.countP
      ServerMessage.isMessageCompleteEvt = 0) :
    (dispatch s now e).1.currentAssistantMessageId = some m := by
  cases e with
  | serverConnected => exact hm
  | serverHeartbeat => exact hm
  | messageUpdated info? => exact handleMessageUpdate_keep now info? hm hnc
  | messagePartUpdated p? d? => exact handlePartUpdate_keep now p? d? hm
  | sessionIdle => exact complete_keep hm hnc
  | sessionStatus st =>
      simp only [dispatch] at hnc ⊢
      split at hnc
      · rename_i hcond
        rw [if_pos hcond]
        exact complete_keep hm hnc
      · rename_i hcond
        rw [if_neg hcond]
        exact hm
  | sessionError e? =>
      simp only [dispatch]
      rw [handleSessionError_state]
      exact hm
  | unknownEvent d => exact hm

theorem process_keep {s : EPState} {m : String} (n : Nat) (e : OpenCodeEvent)
    (hm : s.currentAssistantMessageId = some m)
    (hnc : (process s n e).2.countP ServerMessage.isMessageCompleteEvt = 0) :
    (process s n e).1.currentAssistantMessageId = some m := by
  rw [process_eq] at hnc ⊢
  rw [List.countP_append] at hnc
  have hd : (dispatch (maybeBroadcastToolProgressHeartbeat s n).1 n e).2.countP
      ServerMessage.isMessageCompleteEvt = 0 := by
    have := hb_countP_mc s n
    omega
  exact dispatch_keep n e ((hb_current s n).trans hm) hd

theorem processTrace_keep (evts : List (Nat × OpenCodeEvent)) :
    ∀ (s : EPState) (m : String), invTS s →
      s.currentAssistantMessageId = some m →
      (processTrace s evts).2.countP ServerMessage.isMessageCompleteEvt = 0 →
      (processTrace s evts).1.currentAssistantMessageId = some m ∧
      (processTrace s evts).2.countP ServerMessage.isMessageEvt = 0 := by
  induction evts with
  | nil => exact fun s m _ hm _ => ⟨hm, rfl⟩
  | cons p rest ih =>
      intro s m hinv hm hnc
      obtain ⟨n, e⟩ := p
      simp only [processTrace] at hnc ⊢
      rw [List.countP_append] at hnc
      have h1 : (process s n e).2.countP
          ServerMessage.isMessageCompleteEvt = 0 := by omega
      have h2 : (processTrace (process s n e).1 rest).2.countP
          ServerMessage.isMessageCompleteEvt = 0 := by omega
      have hk := process_keep n e hm h1
      have hstep := msgCount_process s n e hinv
      obtain ⟨hk2, hz2⟩ := ih (process s n e).1 m (invTS_process s n e hinv) hk h2
      refine ⟨hk2, ?_⟩
      rw [List.countP_append, hz2, hstep]
      simp [hm]

theorem processTrace_msg_once (evts : List (Nat × OpenCodeEvent)) :
    ∀ s : EPState, invTS s →
      s.currentAssistantMessageId = none →
      (processTrace s evts).2.countP ServerMessage.isMessageCompleteEvt = 0 →
      (processTrace s evts).2.countP ServerMessage.isMessageEvt =
        if (processTrace s evts).1.currentAssistantMessageId = none
        then 0 else 1 := by
  induction evts with
  | nil =>
      intro s _ h _
      simp [processTrace, h]
  | cons p rest ih =>
      intro s hinv hnone hnc
      obtain ⟨n, e⟩ := p
      simp only [processTrace] at hnc ⊢
      rw [List.countP_append] at hnc ⊢
      have h1 : (process s n e).2.countP
          ServerMessage.isMessageCompleteEvt = 0 := by omega
      have h2 : (processTrace (process s n e).1 rest).2.countP
          ServerMessage.isMessageCompleteEvt = 0 := by omega
      have hstep := msgCount_process s n e hinv
      cases hcur : (process s n e).1.currentAssistantMessageId with
      | none =>
          rw [ih (process s n e).1 (invTS_process s n e hinv) hcur h2]
          rw [hstep]
          simp [hcur]
      | some m =>
          obtain ⟨hk2, hz2⟩ := processTrace_keep rest (process s n e).1 m
            (invTS_process s n e hinv) hcur h2
          rw [hz2, hstep]
          simp [hnone, hcur, hk2]

end EventProcessor

/-! ## C9: tool-progress heartbeat window -/

namespace EventProcessor

theorem heartbeatFires_iff (now : Nat) (w : Watch) :
    heartbeatFires now w = true ↔
      (toolProgressHeartbeatMs ≤ now - w.lastUpdateAt ∧
       toolProgressHeartbeatMs ≤ now - w.lastStatusBroadcastAt) := by
  unfold heartbeatFires
  simp [Nat.not_lt]

theorem winv_setAssoc {t : String} {n : Nat} (k : String) (w : Watch)
    (l : List (String × Watch))
    (hw : n ≤ w.lastStatusBroadcastAt ∨ n ≤ w.lastUpdateAt)
    (h : watchWindowInv t n l) : watchWindowInv t n (setAssoc k w l) := by
  induction l with
  | nil =>
      intro p hp hpt
      simp only [setAssoc, List.mem_singleton] at hp
      subst hp
      exact hw
  | cons q tl ih =>
      obtain ⟨k', v'⟩ := q
      intro p hp hpt
      simp only [setAssoc] at hp
      split at hp
      · rcases List.mem_cons.mp hp with hp | hp
        · subst hp
          exact hw
        · exact h p (List.mem_cons_of_mem _ hp) hpt
      · rcases List.mem_cons.mp hp with hp | hp
        · subst hp
          exact h _ (List.mem_cons_self _ _) hpt
        · exact ih (fun p' hp' hpt' =>
            h p' (List.mem_cons_of_mem _ hp') hpt') p hp hpt

theorem winv_eraseAssoc {t : String} {n : Nat} (k : String)
    (l : List (String × Watch))
    (h : watchWindowInv t n l) : watchWindowInv t n (eraseAssoc k l) := by
  intro p hp hpt
  exact h p (List.mem_filter.mp hp).1 hpt

theorem winv_updateAssoc {t : String} {n : Nat} (k : String)
    (f : Watch → Watch) (l : List (String × Watch))
    (hf : ∀ w, n ≤ (f w).lastStatusBroadcastAt ∨ n ≤ (f w).lastUpdateAt)
    (h : watchWindowInv t n l) : watchWindowInv t n (updateAssoc k f l) := by
  intro p hp hpt
  unfold updateAssoc at hp
  obtain ⟨q, hq, hpq⟩ := List.mem_map.mp hp
  by_cases hk : (q.1 == k) = true
  · rw [if_pos hk] at hpq
    subst hpq
    exact Or.imp id id (hf q.2)
  · rw [if_neg hk] at hpq
    subst hpq
    exact h q hq hpt

theorem winv_map_hbUpdate {t : String} {n : Nat} (m : Nat) (hmn : n ≤ m)
    (l : List (String × Watch))
    (h : watchWindowInv t n l) : watchWindowInv t n (l.map (hbUpdate m)) := by
  intro p hp hpt
  obtain ⟨q, hq, hpq⟩ := List.mem_map.mp hp
  unfold hbUpdate at hpq
  split at hpq
  · subst hpq
    exact Or.inl hmn
  · subst hpq
    exact h q hq hpt

theorem trackUserMessage_watch (s : EPState) (m : String) :
    (trackUserMessage s m).runningToolWatch = s.runningToolWatch := by
  unfold trackUserMessage
  split <;> rfl

theorem handleTextPart_watch (s : EPState) (now : Nat) (part : Part)
    (d? : Option String) :
    (handleTextPart s now part d?).1.runningToolWatch =
      s.runningToolWatch := by
  by_cases h1 : ((trackUserMessage s part.messageID).currentOpenCodeUserMessageId
      == some part.messageID) = true <;>
  by_cases h2 : strTruthy d? = true <;>
  by_cases h3 : strTruthy part.text = true <;>
  simp only [handleTextPart, h1, h2, h3, if_true, if_false,
    Bool.false_eq_true, ite_false, ite_true] <;>
  first
  | exact trackUserMessage_watch s part.messageID
  | exact ((ensureAssistant_fields _ now part.messageID).2.1).trans
      (trackUserMessage_watch s part.messageID)

theorem winv_toolStartStage {t : String} {n : Nat} (s : EPState) (m : Nat)
    (part : Part) (tc tn : String) (m? : Option String)
    (args : List (String × String)) (ha : Bool) (hmn : n ≤ m)
    (h : watchWindowInv t n s.runningToolWatch) :
    watchWindowInv t n
      (toolStartStage s m part tc tn m? args ha).1.runningToolWatch := by
  simp only [toolStartStage]
  split
  · refine winv_setAssoc tc _ _ ?_ h
    exact Or.inr hmn
  · split
    · show watchWindowInv t n (updateAssoc tc (fun (w : Watch) => ({ toolName := tn, startedAt := w.startedAt, lastUpdateAt := m, lastStatusBroadcastAt := w.lastStatusBroadcastAt } : Watch)) s.runningToolWatch)
      refine winv_updateAssoc tc _ _ (fun w => ?_) h
      exact Or.inr hmn
    · exact h

theorem winv_toolMetadataStage {t : String} {n : Nat} (s : EPState) (m : Nat)
    (part : Part) (tc tn : String) (hmn : n ≤ m)
    (h : watchWindowInv t n s.runningToolWatch) :
    watchWindowInv t n
      (toolMetadataStage s m part tc tn).1.runningToolWatch := by
  simp only [toolMetadataStage]
  split
  · exact h
  · split
    · show watchWindowInv t n (updateAssoc tc (fun (w : Watch) => ({ toolName := tn, startedAt := w.startedAt, lastUpdateAt := m, lastStatusBroadcastAt := w.lastStatusBroadcastAt } : Watch)) s.runningToolWatch)
      refine winv_updateAssoc tc _ _ (fun w => ?_) h
      exact Or.inr hmn
    · exact h

theorem winv_toolCompletionStage {t : String} {n : Nat} (s : EPState)
    (part : Part) (tc tn : String) (st? : Option String)
    (h : watchWindowInv t n s.runningToolWatch) :
    watchWindowInv t n
      (toolCompletionStage s part tc tn st?).1.runningToolWatch := by
  simp only [toolCompletionStage]
  split
  · split
    · exact winv_eraseAssoc tc _ h
    · exact h
  · exact h

theorem winv_handleToolPart {t : String} {n : Nat} (s : EPState) (m : Nat)
    (part : Part) (tc tn : String) (hmn : n ≤ m)
    (h : watchWindowInv t n s.runningToolWatch) :
    watchWindowInv t n
      (handleToolPart s m part tc tn).1.runningToolWatch := by
  simp only [handleToolPart]
  refine winv_toolCompletionStage _ _ _ _ _ ?_
  refine winv_toolMetadataStage _ _ _ _ _ hmn ?_
  refine winv_toolStartStage _ _ _ _ _ _ _ _ hmn ?_
  rw [(ensureAssistant_fields s m part.messageID).2.1]
  exact h

theorem winv_complete {t : String} {n : Nat} (s : EPState)
    (h : watchWindowInv t n s.runningToolWatch) :
    watchWindowInv t n (completeCurrentMessage s).1.runningToolWatch := by
  unfold completeCurrentMessage
  split
  · exact h
  · split
    · exact h
    · intro p hp
      simp at hp

theorem winv_handleMessageUpdate {t : String} {n : Nat} (s : EPState)
    (m : Nat) (info? : Option MessageInfo)
    (h : watchWindowInv t n s.runningToolWatch) :
    watchWindowInv t n
      (handleMessageUpdate s m info?).1.runningToolWatch := by
  cases info? with
  | none => exact h
  | some info =>
    rcases hid : info.id with _ | messageId <;>
      rcases hrole : info.role with _ | role <;>
      simp only [handleMessageUpdate, hid, hrole]
    · exact h
    · exact h
    · exact h
    · have hens : watchWindowInv t n
          (ensureAssistantMessage s m messageId).1.runningToolWatch := by
        rw [(ensureAssistant_fields s m messageId).2.1]
        exact h
      split
      · exact h
      · split
        · exact h
        · split
          · split
            · exact h
            · exact h
          · split
            · exact h
            · split
              · exact hens
              · split
                · exact winv_complete _ hens
                · exact hens

theorem winv_handlePartUpdate {t : String} {n : Nat} (s : EPState) (m : Nat)
    (p? : Option Part) (d? : Option String) (hmn : n ≤ m)
    (h : watchWindowInv t n s.runningToolWatch) :
    watchWindowInv t n
      (handlePartUpdate s m p? d?).1.runningToolWatch := by
  unfold handlePartUpdate
  split
  · exact h
  · split
    · exact h
    · split
      · exact h
      · split
        · rw [handleTextPart_watch]
          exact h
        · split
          · split
            · exact winv_handleToolPart _ _ _ _ _ hmn h
            · exact h
          · exact h

theorem winv_dispatch {t : String} {n : Nat} (s : EPState) (m : Nat)
    (e : OpenCodeEvent) (hmn : n ≤ m)
    (h : watchWindowInv t n s.runningToolWatch) :
    watchWindowInv t n (dispatch s m e).1.runningToolWatch := by
  cases e with
  | serverConnected => exact h
  | serverHeartbeat => exact h
  | messageUpdated info? => exact winv_handleMessageUpdate _ _ _ h
  | messagePartUpdated p? d? => exact winv_handlePartUpdate _ _ _ _ hmn h
  | sessionIdle => exact winv_complete _ h
  | sessionStatus st =>
      simp only [dispatch]
      split
      · exact winv_complete _ h
      · exact h
  | sessionError e? =>
      simp only [dispatch]
      rw [handleSessionError_state]
      exact h
  | unknownEvent d => exact h

theorem winv_process {t : String} {n : Nat} (s : EPState) (m : Nat)
    (e : OpenCodeEvent) (hmn : n ≤ m)
    (h : watchWindowInv t n s.runningToolWatch) :
    watchWindowInv t n (process s m e).1.runningToolWatch := by
  refine winv_dispatch _ _ _ hmn ?_
  rw [hb_state_fields]
  exact winv_map_hbUpdate m hmn _ h

theorem winv_processTrace {t : String} {n : Nat}
    (evts : List (Nat × OpenCodeEvent)) :
    ∀ s : EPState, (∀ q ∈ evts, n ≤ q.1) →
      watchWindowInv t n s.runningToolWatch →
      watchWindowInv t n (processTrace s evts).1.runningToolWatch := by
  induction evts with
  | nil => exact fun s _ h => h
  | cons q rest ih =>
      intro s hq h
      obtain ⟨m, e⟩ := q
      simp only [processTrace]
      refine ih _ (fun q' hq' => hq q' (List.mem_cons_of_mem _ hq')) ?_
      exact winv_process s m e (hq (m, e) (List.mem_cons_self _ _)) h

theorem winv_establish {t : String} (s : EPState) (n : Nat)
    (e : OpenCodeEvent)
    (hfire : ∀ p ∈ s.runningToolWatch, p.1 = t →
      heartbeatFires n p.2 = true) :
    watchWindowInv t n (process s n e).1.runningToolWatch := by
  refine winv_dispatch _ _ _ (Nat.le_refl n) ?_
  rw [hb_state_fields]
  intro p hp hpt
  obtain ⟨q, hq, hpq⟩ := List.mem_map.mp hp
  unfold hbUpdate at hpq
  split at hpq
  · subst hpq
    exact Or.inl (Nat.le_refl n)
  · rename_i hnf
    subst hpq
    exact absurd (hfire q hq hpt) hnf

theorem winv_window {t : String} {n : Nat} (s : EPState) (n' : Nat)
    (h : watchWindowInv t n s.runningToolWatch) :
    ∀ p ∈ s.runningToolWatch, p.1 = t → heartbeatFires n' p.2 = true →
      toolProgressHeartbeatMs ≤ n' - n := by
  intro p hp hpt hf
  obtain ⟨h1, h2⟩ := (heartbeatFires_iff n' p.2).mp hf
  rcases h p hp hpt with h3 | h3
  · calc toolProgressHeartbeatMs ≤ n' - p.2.lastStatusBroadcastAt := h2
      _ ≤ n' - n := Nat.sub_le_sub_left h3 n'
  · calc toolProgressHeartbeatMs ≤ n' - p.2.lastUpdateAt := h1
      _ ≤ n' - n := Nat.sub_le_sub_left h3 n'

theorem mem_handleMessageUpdate_status (s : EPState) (now : Nat)
    (info? : Option MessageInfo) :
    ∀ b ∈ (handleMessageUpdate s now info?).2,
      ServerMessage.isStatusEvt b = false := by
  intro b hb
  cases info? with
  | none => simp [handleMessageUpdate] at hb
  | some info =>
    rcases hid : info.id with _ | messageId <;>
      rcases hrole : info.role with _ | role <;>
      simp only [handleMessageUpdate, hid, hrole] at hb
    · simp at hb
    · simp at hb
    · simp at hb
    · split at hb
      · simp at hb
      · split at hb
        · simp at hb
        · split at hb
          · split at hb <;> simp at hb
          · split at hb
            · simp at hb
            · split at hb
              · have := mem_ensureAssistant _ _ _ b hb
                subst this
                rfl
              · split at hb
                · rcases List.mem_append.mp hb with hb | hb
                  · rcases List.mem_append.mp hb with hb | hb
                    · have := mem_ensureAssistant _ _ _ b hb
                      subst this
                      rfl
                    · obtain ⟨em, hem⟩ := mem_messageErrorBroadcasts _ b hb
                      subst hem
                      rfl
                  · obtain ⟨mm, hmm⟩ := mem_completeCurrentMessage _ b hb
                    subst hmm
                    rfl
                · rcases List.mem_append.mp hb with hb | hb
                  · have := mem_ensureAssistant _ _ _ b hb
                    subst this
                    rfl
                  · obtain ⟨em, hem⟩ := mem_messageErrorBroadcasts _ b hb
                    subst hem
                    rfl

theorem dispatch_no_status (s : EPState) (now : Nat) (e : OpenCodeEvent) :
    ∀ b ∈ (dispatch s now e).2, ServerMessage.isStatusEvt b = false := by
  intro b hb
  cases e with
  | serverConnected => simp [dispatch] at hb
  | serverHeartbeat => simp [dispatch] at hb
  | messageUpdated info? => exact mem_handleMessageUpdate_status _ _ _ b hb
  | messagePartUpdated p? d? => exact (mem_handlePartUpdate _ _ _ _ b hb).2.2
  | sessionIdle =>
      obtain ⟨m, hm⟩ := mem_completeCurrentMessage _ b hb
      subst hm
      rfl
  | sessionStatus st =>
      simp only [dispatch] at hb
      split at hb
      · obtain ⟨m, hm⟩ := mem_completeCurrentMessage _ b hb
        subst hm
        rfl
      · simp at hb
  | sessionError e? =>
      obtain ⟨m, hm⟩ := mem_handleSessionError _ _ b hb
      subst hm
      rfl
  | unknownEvent d => simp [dispatch] at hb

theorem process_status_from_watch (s : EPState) (now : Nat)
    (e : OpenCodeEvent) :
    ∀ b ∈ (process s now e).2, ServerMessage.isStatusEvt b = true →
      ∃ p ∈ s.runningToolWatch, heartbeatFires now p.2 = true ∧
        b = renderHeartbeat now p.2 := by
  intro b hb hst
  rw [process_eq] at hb
  rcases List.mem_append.mp hb with hb | hb
  · rw [hb_spec] at hb
    obtain ⟨p, hp, hpb⟩ := List.mem_map.mp hb
    exact ⟨p, (List.mem_filter.mp hp).1,
      by simpa using (List.mem_filter.mp hp).2, hpb.symm⟩
  · exact absurd hst (by simp [dispatch_no_status _ now e b hb])

end EventProcessor

/-! ## Claim theorems: sandbox provider -/

section VpsClaims
open VPSProvider

/-- C7: `ensureSandbox` recovers a live current sandbox (same id,
`recovered = true`, no `createSandbox` consulted); in every other case —
including a dead `currentSandboxId` — it falls through to `createSandbox`
and returns its result (`sandboxId`, `tunnelUrl`, `previewUrl`, `expiresAt`)
with `recovered = false`. -/
theorem vps_ensure_sandbox_recover_or_create :
    ∀ (env : VpsEnv) (cur : String),
      ((cur == "") = false →
        (checkSandboxes env.dockerPsStdout [cur]).length > 0 →
          (ensureSandbox env (some cur) =
            .ok { sandboxId := cur, tunnelUrl := (env.tunnels cur).1,
                  previewUrl := (env.tunnels cur).2, expiresAt := none,
                  recovered := true } ∧
           ∀ c₁ c₂ : Except SandboxProviderError CreateSandboxResult,
             ensureSandbox { env with createSandbox := c₁ } (some cur) =
               ensureSandbox { env with createSandbox := c₂ } (some cur))) ∧
      ((checkSandboxes env.dockerPsStdout [cur]).length = 0 →
        ensureSandbox env (some cur) = ensureViaCreate env) ∧
      ((cur == "") = true → ensureSandbox env (some cur) = ensureViaCreate env) ∧
      (ensureSandbox env none = ensureViaCreate env) ∧
      (∀ r, env.createSandbox = .ok r →
        ensureViaCreate env =
          .ok { sandboxId := r.sandboxId, tunnelUrl := r.tunnelUrl,
                previewUrl := r.previewUrl, expiresAt := some r.expiresAt,
                recovered := false }) := by
  intro env cur
  refine ⟨fun hne halive => ?_, fun hdead => ?_, fun he => ?_, rfl, fun r hr => ?_⟩
  · have hrec : ∀ c : Except SandboxProviderError CreateSandboxResult,
        ensureSandbox { env with createSandbox := c } (some cur) =
          .ok { sandboxId := cur, tunnelUrl := (env.tunnels cur).1,
                previewUrl := (env.tunnels cur).2, expiresAt := none,
                recovered := true } := by
      intro c
      simp [ensureSandbox, hne, halive]
    exact ⟨hrec env.createSandbox, fun c₁ c₂ => (hrec c₁).trans (hrec c₂).symm⟩
  · simp only [ensureSandbox, hdead]
    split <;> simp_all
  · simp [ensureSandbox, he]
  · simp [ensureViaCreate, hr, Except.map]

/-- Witness for C7 at a concrete environment: a live id is recovered, a dead
id falls through to the created sandbox. -/
theorem vps_ensure_sandbox_recover_or_create_witness :
    ("abc" == "") = false ∧
    (VPSProvider.checkSandboxes envW.dockerPsStdout ["abc"]).length > 0 ∧
    VPSProvider.ensureSandbox envW (some "abc") =
      .ok { sandboxId := "abc", tunnelUrl := "http://h:1",
            previewUrl := "http://h:2", expiresAt := none,
            recovered := true } ∧
    (VPSProvider.checkSandboxes envW.dockerPsStdout ["zzz"]).length = 0 ∧
    VPSProvider.ensureSandbox envW (some "zzz") =
      .ok { sandboxId := "new1", tunnelUrl := "http://h:3",
            previewUrl := "http://h:4", expiresAt := some 1000,
            recovered := false } := by
  refine ⟨by decide, by decide, ?_, by decide, ?_⟩
  · exact ((vps_ensure_sandbox_recover_or_create envW "abc").1
      (by decide) (by decide)).1
  · rw [(vps_ensure_sandbox_recover_or_create envW "zzz").2.1 (by decide)]
    exact (vps_ensure_sandbox_recover_or_create envW "zzz").2.2.2.2 _ rfl

/-- C8: `execCommand` always resolves to a `{stdout, stderr, exitCode}`
record built from the SSH result, passing any exit code through and mapping
a missing code to `-1`; it has no failure path. -/
theorem vps_exec_command_never_throws :
    ∀ (env : VpsEnv) (esc : String → String) (sandboxId : String)
      (argv : List String) (opts : Option ExecOpts),
      execCommand env esc sandboxId argv opts =
        { stdout := (env.sshExec (execCommandString esc sandboxId argv opts)).stdout,
          stderr := (env.sshExec (execCommandString esc sandboxId argv opts)).stderr,
          exitCode :=
            ((env.sshExec (execCommandString esc sandboxId argv opts)).code).getD (-1) } ∧
      (∀ c, (env.sshExec (execCommandString esc sandboxId argv opts)).code = some c →
        (execCommand env esc sandboxId argv opts).exitCode = c) ∧
      ((env.sshExec (execCommandString esc sandboxId argv opts)).code = none →
        (execCommand env esc sandboxId argv opts).exitCode = -1) := by
  intro env esc sandboxId argv opts
  refine ⟨rfl, fun c hc => ?_, fun hc => ?_⟩
  · simp [execCommand, hc]
  · simp [execCommand, hc]

/-- Witness for C8: a concrete command whose SSH result has exit code 7. -/
theorem vps_exec_command_never_throws_witness :
    (envW.sshExec (VPSProvider.execCommandString id "sb1" ["false"] none)).code =
      some 7 ∧
    (VPSProvider.execCommand envW id "sb1" ["false"] none).exitCode = 7 :=
  ⟨rfl, (vps_exec_command_never_throws envW id "sb1" ["false"] none).2.1 7 rfl⟩

end VpsClaims

/-! ## Claim theorems: event processor error handling and passive events -/

section EpClaims
open EventProcessor

/-- C10 (counterexample): a `server.heartbeat` event can produce a broadcast —
the opportunistic tool-progress heartbeat fires on every processed event. -/
theorem ep_process_passive_counterexample :
    (process silentToolState 15000 .serverHeartbeat).2 ≠ [] := by decide

/-- C10 (amended): `process` is total by construction, and connection,
heartbeat and unknown event types leave the processor state untouched except
for the heartbeat probe and emit no broadcast other than tool-progress
heartbeat `status` messages; with no tracked running tool they emit
nothing. -/
theorem ep_process_passive_only_heartbeat :
    ∀ (s : EPState) (now : Nat) (e : OpenCodeEvent),
      (e = .serverConnected ∨ e = .serverHeartbeat ∨ ∃ t, e = .unknownEvent t) →
      ((∀ b ∈ (process s now e).2, ServerMessage.isStatusEvt b = true) ∧
       (process s now e).1 = (maybeBroadcastToolProgressHeartbeat s now).1 ∧
       (s.runningToolWatch = [] → process s now e = (s, []))) := by
  intro s now e he
  have hd : dispatch (maybeBroadcastToolProgressHeartbeat s now).1 now e =
      ((maybeBroadcastToolProgressHeartbeat s now).1, []) := by
    rcases he with h | h | ⟨t, h⟩ <;> subst h <;> rfl
  refine ⟨?_, ?_, ?_⟩
  · intro b hb
    rw [process_eq, hd] at hb
    simp only [List.append_nil] at hb
    exact hb_all_status s now b hb
  · rw [process_eq, hd]
  · intro hw
    rw [process_eq, hd]
    rw [hb_spec]
    simp [hw]
    cases s
    simp_all

/-- Witness for C10's amended theorem: with no running tool a heartbeat
event produces no broadcast at all. -/
theorem ep_process_passive_only_heartbeat_witness :
    process emptyState 0 .serverHeartbeat = (emptyState, []) :=
  (ep_process_passive_only_heartbeat emptyState 0 .serverHeartbeat
    (Or.inr (Or.inl rfl))).2.2 rfl

/-- C1: `message_complete` is only ever broadcast from a state in which no
tracked tool is `running`; and in the reordered
idle / tool-completion / more-idle turn, exactly one `message_complete`
is broadcast. -/
theorem ep_message_complete_not_while_running :
    (∀ (s : EPState) (now : Nat) (e : OpenCodeEvent) (b : ServerMessage),
        b ∈ (process s now e).2 → ServerMessage.isMessageCompleteEvt b = true →
        hasRunningTools s = false) ∧
    (processTrace emptyState reorderedTurnEvents).2.countP
      ServerMessage.isMessageCompleteEvt = 1 := by
  constructor
  · intro s now e b hb hmc
    rw [process_eq] at hb
    rcases List.mem_append.mp hb with hhb | hd
    · have := hb_all_status s now b hhb
      cases b <;> simp_all [ServerMessage.isStatusEvt,
        ServerMessage.isMessageCompleteEvt]
    · have hts : hasRunningTools (maybeBroadcastToolProgressHeartbeat s now).1 =
          hasRunningTools s := by
        rw [hb_state_fields]
        unfold hasRunningTools
        rfl
      cases e with
      | serverConnected => simp [dispatch] at hd
      | serverHeartbeat => simp [dispatch] at hd
      | unknownEvent t => simp [dispatch] at hd
      | messageUpdated info =>
          simp only [dispatch] at hd
          rw [← hts]
          exact mem_handleMessageUpdate_mc _ now info b hd hmc
      | messagePartUpdated p d =>
          simp only [dispatch] at hd
          have := mem_handlePartUpdate _ now p d b hd
          rw [this.1] at hmc
          exact absurd hmc (by simp)
      | sessionError err =>
          simp only [dispatch] at hd
          obtain ⟨m, h⟩ := mem_handleSessionError _ err b hd
          subst h
          simp [ServerMessage.isMessageCompleteEvt] at hmc
      | sessionIdle =>
          simp only [dispatch] at hd
          rw [← hts]
          exact completeCurrentMessage_not_running _ b hd
      | sessionStatus st =>
          simp only [dispatch] at hd
          rw [← hts]
          split at hd
          · exact completeCurrentMessage_not_running _ b hd
          · simp at hd
  · decide

/-- Witness for C1: a concrete `message_complete` emission happens with all
tools completed. -/
theorem ep_message_complete_not_while_running_witness :
    (ServerMessage.messageComplete "msgA") ∈
      (process completedToolState 0 .sessionIdle).2 ∧
    hasRunningTools completedToolState = false :=
  ⟨by decide, ep_message_complete_not_while_running.1 completedToolState 0
    .sessionIdle (.messageComplete "msgA") (by decide) (by decide)⟩

/-- C2: tool events are deduplicated by (part-id, phase) key. Feeding the
same tool-part update twice yields no `tool_start`/`tool_end` on the second
delivery; a first sighting from a state with the part's keys unsent yields
exactly one `tool_start`, a completed/error status yields exactly one
`tool_end`, and any number of further redeliveries of the completed update
yield no further `tool_end`. -/
theorem ep_tool_event_idempotence :
    ∀ (s : EPState) (n n' : Nat) (part : Part) (d? : Option String),
      ((process (process s n (.messagePartUpdated (some part) d?)).1 n'
          (.messagePartUpdated (some part) d?)).2.countP
        ServerMessage.isToolStartEvt = 0 ∧
       (process (process s n (.messagePartUpdated (some part) d?)).1 n'
          (.messagePartUpdated (some part) d?)).2.countP
        ServerMessage.isToolEndEvt = 0) ∧
      (reachesToolHandler s part = true →
        (part.id ++ ":start") ∉ s.sentToolEvents →
        (part.id ++ ":end") ∉ s.sentToolEvents →
        ((process s n (.messagePartUpdated (some part) d?)).2.countP
            ServerMessage.isToolStartEvt = 1 ∧
         ((part.state.bind (·.status) == some "completed" ||
           part.state.bind (·.status) == some "error") = true →
           ((process s n (.messagePartUpdated (some part) d?)).2.countP
              ServerMessage.isToolEndEvt = 1 ∧
            ∀ times : List Nat,
              (processTrace (process s n (.messagePartUpdated (some part) d?)).1
                (times.map (fun t =>
                  (t, OpenCodeEvent.messagePartUpdated (some part) d?)))).2.countP
                ServerMessage.isToolEndEvt = 0)))) := by
  intro s n n' part d?
  have hbs1 : (maybeBroadcastToolProgressHeartbeat s n).1.sentToolEvents =
      s.sentToolEvents := hb_sent s n
  have hr1 : reachesToolHandler (maybeBroadcastToolProgressHeartbeat s n).1 part =
      reachesToolHandler s part := reach_congr part (hb_ocsid s n)
  constructor
  · -- duplicate delivery emits nothing
    set s₁ := (process s n (.messagePartUpdated (some part) d?)).1 with hs₁
    have hocsid : s₁.openCodeSessionId = s.openCodeSessionId :=
      process_ocsid s n _
    have hbsent : (maybeBroadcastToolProgressHeartbeat s₁ n').1.sentToolEvents =
        s₁.sentToolEvents := hb_sent s₁ n'
    have hr2 : reachesToolHandler (maybeBroadcastToolProgressHeartbeat s₁ n').1 part =
        reachesToolHandler s part := by
      rw [reach_congr part (hb_ocsid s₁ n'), reach_congr part hocsid]
    rw [process_partUpdated_eq s₁ n' (some part) d?]
    simp only [List.countP_append, hb_countP_toolStart, hb_countP_toolEnd]
    cases hr : reachesToolHandler s part
    · rw [hr] at hr2
      have := handlePartUpdate_not_tool_counts _ n' part d? hr2
      rw [this.1, this.2]
      exact ⟨rfl, rfl⟩
    · rw [hr] at hr2
      rw [handlePartUpdate_eq_tool _ n' part d? hr2]
      -- after the first delivery every relevant key is recorded
      have hstart : (part.id ++ ":start") ∈ s₁.sentToolEvents := by
        rw [hs₁, process_partUpdated_eq s n (some part) d?]
        rw [handlePartUpdate_eq_tool _ n part d? (by rw [hr1, hr])]
        exact handleToolPart_start_mem _ n part _ _
      have hargs : ((part.state.bind (·.input)).getD []).length > 0 →
          (part.id ++ ":args") ∈ s₁.sentToolEvents := by
        intro hha
        rw [hs₁, process_partUpdated_eq s n (some part) d?]
        rw [handlePartUpdate_eq_tool _ n part d? (by rw [hr1, hr])]
        exact handleToolPart_args_mem _ n part _ _ hha
      constructor
      · rw [handleToolPart_countStart_dup _ n' part _ _
          (by rw [hbsent]; exact hstart)
          (fun hha => by rw [hbsent]; exact hargs hha)]
      · cases hst : (part.state.bind (·.status) == some "completed" ||
            part.state.bind (·.status) == some "error")
        · rw [handleToolPart_countEnd_not_completed _ n' part _ _ hst]
        · have hendk : (part.id ++ ":end") ∈ s₁.sentToolEvents := by
            rw [hs₁, process_partUpdated_eq s n (some part) d?]
            rw [handlePartUpdate_eq_tool _ n part d? (by rw [hr1, hr])]
            exact handleToolPart_end_mem _ n part _ _ hst
          rw [handleToolPart_countEnd_done _ n' part _ _
            (by rw [hbsent]; exact hendk)]
  · -- first sighting from fresh keys
    intro hreach hstartfresh hendfresh
    have hr2 : reachesToolHandler (maybeBroadcastToolProgressHeartbeat s n).1 part =
        true := by rw [hr1]; exact hreach
    constructor
    · rw [process_partUpdated_eq s n (some part) d?]
      simp only [List.countP_append, hb_countP_toolStart]
      rw [handlePartUpdate_eq_tool _ n part d? hr2]
      rw [handleToolPart_countStart_fresh _ n part _ _
        (by rw [hbs1]; exact hstartfresh)]
    · intro hst
      constructor
      · rw [process_partUpdated_eq s n (some part) d?]
        simp only [List.countP_append, hb_countP_toolEnd]
        rw [handlePartUpdate_eq_tool _ n part d? hr2]
        rw [handleToolPart_countEnd_fresh _ n part _ _ hst
          (by rw [hbs1]; exact hendfresh)]
      · intro times
        have hendk : (part.id ++ ":end") ∈
            (process s n (.messagePartUpdated (some part) d?)).1.sentToolEvents := by
          rw [process_partUpdated_eq s n (some part) d?]
          rw [handlePartUpdate_eq_tool _ n part d? hr2]
          exact handleToolPart_end_mem _ n part _ _ hst
        exact process_part_trace_countEnd_zero part d? times _ hendk

/-- Witness for C2: the concrete running tool part from a fresh state —
one `tool_start` on first delivery, none on the second. -/
theorem ep_tool_event_idempotence_witness :
    reachesToolHandler emptyState (scenarioToolPart "completed" (some "ok")) = true ∧
    (process emptyState 0 (.messagePartUpdated
        (some (scenarioToolPart "completed" (some "ok"))) none)).2.countP
      ServerMessage.isToolStartEvt = 1 ∧
    (process emptyState 0 (.messagePartUpdated
        (some (scenarioToolPart "completed" (some "ok"))) none)).2.countP
      ServerMessage.isToolEndEvt = 1 ∧
    (process (process emptyState 0 (.messagePartUpdated
        (some (scenarioToolPart "completed" (some "ok"))) none)).1 1
      (.messagePartUpdated
        (some (scenarioToolPart "completed" (some "ok"))) none)).2.countP
      ServerMessage.isToolEndEvt = 0 := by
  have h := ep_tool_event_idempotence emptyState 0 1
    (scenarioToolPart "completed" (some "ok")) none
  have h2 := h.2 (by decide) (by decide) (by decide)
  exact ⟨by decide, h2.1, (h2.2 (by decide)).1, h.1.2⟩

/-- C5: `resetForNewPrompt` clears every piece of per-turn state, and after
a reset no broadcast on any fresh event sequence carries an assistant-message
id that only the pre-reset state knew. -/
theorem ep_reset_isolation :
    (∀ s : EPState, resetForNewPrompt s =
      { s with
        currentAssistantMessageId := none
        currentOpenCodeUserMessageId := none
        toolStates := []
        runningToolWatch := []
        sentToolEvents := [] }) ∧
    (∀ (s : EPState) (M : String) (evs : List (Nat × OpenCodeEvent)),
      (∀ p ∈ evs, M ∉ eventMsgIds p.2) →
      ∀ b ∈ (processTrace (resetForNewPrompt s) evs).2,
        M ∉ broadcastAssistantIds b) := by
  refine ⟨fun s => rfl, fun s M evs hev => ?_⟩
  exact (processTrace_no_stale_id M evs (resetForNewPrompt s)
    (by simp [resetForNewPrompt]) hev).1

/-- Witness for C5: after resetting a state that held the assistant id
`staleId`, a full fresh turn never broadcasts that id. -/
theorem ep_reset_isolation_witness :
    ∀ b ∈ (EventProcessor.processTrace
        (EventProcessor.resetForNewPrompt stalePrevTurnState)
        reorderedTurnEvents).2,
      "staleId" ∉ EventProcessor.broadcastAssistantIds b :=
  ep_reset_isolation.2 stalePrevTurnState "staleId" reorderedTurnEvents
    (by decide)

/-- C6: the first message id seen after a reset — from a user-role
`message.updated` or from the first text part — is recorded as the echoed
user message, and every text part carrying that id produces no `token` or
`text_part_complete` broadcast (the first one included). -/
theorem ep_user_echo_suppression :
    ∀ (s : EPState) (now : Nat) (part : Part) (d? : Option String)
      (info : MessageInfo) (u : String),
      (s.currentOpenCodeUserMessageId = none → info.id = some u →
        (u == "") = false → info.role = some "user" →
        (strTruthy s.openCodeSessionId &&
          strTruthy (info.sessionID <|> info.sessionId) &&
          !((info.sessionID <|> info.sessionId) == s.openCodeSessionId)) = false →
        (process s now (.messageUpdated (some info))).1.currentOpenCodeUserMessageId
          = some u) ∧
      (s.currentOpenCodeUserMessageId = none →
        reachesTextHandler s part = true →
        ((process s now (.messagePartUpdated (some part) d?)).1.currentOpenCodeUserMessageId
            = some part.messageID ∧
         (process s now (.messagePartUpdated (some part) d?)).2.countP
           ServerMessage.isTokenEvt = 0 ∧
         (process s now (.messagePartUpdated (some part) d?)).2.countP
           ServerMessage.isTextPartCompleteEvt = 0)) ∧
      (s.currentOpenCodeUserMessageId = some part.messageID →
        ((process s now (.messagePartUpdated (some part) d?)).2.countP
           ServerMessage.isTokenEvt = 0 ∧
         (process s now (.messagePartUpdated (some part) d?)).2.countP
           ServerMessage.isTextPartCompleteEvt = 0)) := by
  intro s now part d? info u
  refine ⟨fun hnone hid hu hrole hdrop => ?_, fun hnone hreach => ?_,
    fun hrec => ?_⟩
  · show (handleMessageUpdate (maybeBroadcastToolProgressHeartbeat s now).1 now
      (some info)).1.currentOpenCodeUserMessageId = some u
    rw [handleMessageUpdate_user_record _ now info u
      (by rw [hb_userId]; exact hnone) hid hu hrole
      (by rw [hb_ocsid]; exact hdrop)]
  · have hr : reachesTextHandler (maybeBroadcastToolProgressHeartbeat s now).1 part
        = true := by
      rw [reachText_congr part (hb_ocsid s now)]
      exact hreach
    have hfirst := handleTextPart_first
      (maybeBroadcastToolProgressHeartbeat s now).1 now part d?
      (by rw [hb_userId]; exact hnone)
    refine ⟨?_, ?_, ?_⟩
    · show (handlePartUpdate (maybeBroadcastToolProgressHeartbeat s now).1 now
        (some part) d?).1.currentOpenCodeUserMessageId = some part.messageID
      rw [handlePartUpdate_eq_text _ now part d? hr, hfirst]
    · rw [process_partUpdated_eq]
      rw [List.countP_append, hb_countP_token,
        handlePartUpdate_eq_text _ now part d? hr, hfirst]
      rfl
    · rw [process_partUpdated_eq]
      rw [List.countP_append, hb_countP_tpc,
        handlePartUpdate_eq_text _ now part d? hr, hfirst]
      rfl
  · have h := handlePartUpdate_no_text_counts
      (maybeBroadcastToolProgressHeartbeat s now).1 now part d?
      (by rw [hb_userId]; exact hrec)
    constructor
    · rw [process_partUpdated_eq, List.countP_append, hb_countP_token, h.1]
    · rw [process_partUpdated_eq, List.countP_append, hb_countP_tpc, h.2]

/-- Witness for C6: a concrete user message is recorded and its text part
is suppressed. -/
theorem ep_user_echo_suppression_witness :
    (process emptyState 0 (.messageUpdated (some
      { id := some "msgU", role := some "user", sessionID := none,
        sessionId := none, error := none,
        timeCompleted := none }))).1.currentOpenCodeUserMessageId = some "msgU" ∧
    (process { emptyState with currentOpenCodeUserMessageId := some "msgU" } 0
        (.messagePartUpdated (some
          { id := "prtU", messageID := "msgU", type := "text",
            sessionID := none, callID := none, tool := none,
            text := some "hello", state := none }) none)).2.countP
      ServerMessage.isTokenEvt = 0 := by
  constructor
  · exact (ep_user_echo_suppression emptyState 0
      { id := "prtU", messageID := "msgU", type := "text", sessionID := none,
        callID := none, tool := none, text := some "hello", state := none }
      none
      { id := some "msgU", role := some "user", sessionID := none,
        sessionId := none, error := none, timeCompleted := none }
      "msgU").1 rfl rfl (by decide) rfl (by decide)
  · exact ((ep_user_echo_suppression
      { emptyState with currentOpenCodeUserMessageId := some "msgU" } 0
      { id := "prtU", messageID := "msgU", type := "text", sessionID := none,
        callID := none, tool := none, text := some "hello", state := none }
      none
      { id := some "msgU", role := some "user", sessionID := none,
        sessionId := none, error := none, timeCompleted := none }
      "msgU").2.2 rfl).1

/-- C4: abort-like `session.error` events (name `MessageAbortedError` /
`AbortError`, or message text matching a known cancellation phrase such as
"operation was aborted") produce zero `error` broadcasts; every other
`session.error` event produces exactly one. -/
theorem ep_abort_suppression :
    ∀ (s : EPState) (now : Nat) (err? : Option ErrorVal),
      (isAbortLikeOpenCodeError err? = true →
        ((process s now (.sessionError err?)).2.countP ServerMessage.isErrorEvt) = 0) ∧
      (isAbortLikeOpenCodeError err? = false →
        ((process s now (.sessionError err?)).2.countP ServerMessage.isErrorEvt) = 1) ∧
      (∀ name msg dm,
        ((strToLower name == "aborterror") = true ∨
         (strToLower name == "messageabortederror") = true) →
        isAbortLikeOpenCodeError (some (.vobj (some name) msg dm)) = true) ∧
      (∀ name dm (m : String),
        strContainsSub (strToLower m) "operation was aborted" = true →
        isAbortLikeOpenCodeError (some (.vobj name (some m) dm)) = true) := by
  intro s now err?
  have hz := hb_countP_eq_zero s now ServerMessage.isErrorEvt (fun _ _ => rfl)
  refine ⟨fun habort => ?_, fun habort => ?_, fun name msg dm h => ?_, fun name dm m h => ?_⟩
  · rw [process_eq]
    simp only [List.countP_append, hz, dispatch, handleSessionError, habort]
    simp
  · rw [process_eq]
    simp only [List.countP_append, hz, dispatch, handleSessionError, habort]
    simp [ServerMessage.isErrorEvt]
  · have hn : strToLower name = "aborterror" ∨ strToLower name = "messageabortederror" := by
      rcases h with h | h
      · exact Or.inl (by simpa using h)
      · exact Or.inr (by simpa using h)
    simp only [isAbortLikeOpenCodeError, Option.map_some']
    rcases hn with hn | hn <;> simp [hn]
  · simp only [isAbortLikeOpenCodeError]
    split
    · rfl
    · refine List.any_eq_true.mpr ⟨strToLower m, ?_, by simp [abortPhrase, h]⟩
      cases dm <;> simp

/-- Witness for C4: a concrete `AbortError` is suppressed while a plain
error is broadcast exactly once. -/
theorem ep_abort_suppression_witness :
    isAbortLikeOpenCodeError (some (.vobj (some "AbortError") none none)) = true ∧
    ((process emptyState 0
        (.sessionError (some (.vobj (some "AbortError") none none)))).2.countP
      ServerMessage.isErrorEvt) = 0 ∧
    isAbortLikeOpenCodeError (some (.vobj (some "Boom") none (some "bad"))) = false ∧
    ((process emptyState 0
        (.sessionError (some (.vobj (some "Boom") none (some "bad"))))).2.countP
      ServerMessage.isErrorEvt) = 1 := by
  refine ⟨by decide, ?_, by decide, ?_⟩
  · exact (ep_abort_suppression emptyState 0
      (some (.vobj (some "AbortError") none none))).1 (by decide)
  · exact (ep_abort_suppression emptyState 0
      (some (.vobj (some "Boom") none (some "bad")))).2.1 (by decide)

/-- C3: the assistant `message` broadcast is tied to the single
current-assistant-message-id slot. (1) On every processed event (a
`message.updated`, a text part, a tool part, or anything else), a `message`
broadcast is emitted exactly when the slot transitions from null to
non-null — so at most once per event and never while the slot is occupied.
(2) `resetForNewPrompt` establishes the slot invariant with a null slot.
(3) `process` preserves the invariant. (4) Consequently, over any event
sequence that starts with a null slot and completes no turn (no
`message_complete` broadcast), `message` is broadcast at most once: exactly
once if the slot ends non-null and never otherwise. -/
theorem ep_assistant_message_once :
    (∀ (s : EPState) (n : Nat) (e : OpenCodeEvent), invTS s →
      (process s n e).2.countP ServerMessage.isMessageEvt =
        if s.currentAssistantMessageId = none ∧
           (process s n e).1.currentAssistantMessageId ≠ none
        then 1 else 0) ∧
    (∀ s : EPState, invTS (resetForNewPrompt s) ∧
      (resetForNewPrompt s).currentAssistantMessageId = none) ∧
    (∀ (s : EPState) (n : Nat) (e : OpenCodeEvent), invTS s →
      invTS (process s n e).1) ∧
    (∀ (evts : List (Nat × OpenCodeEvent)) (s : EPState), invTS s →
      s.currentAssistantMessageId = none →
      (processTrace s evts).2.countP ServerMessage.isMessageCompleteEvt = 0 →
      (processTrace s evts).2.countP ServerMessage.isMessageEvt =
        if (processTrace s evts).1.currentAssistantMessageId = none
        then 0 else 1) :=
  ⟨msgCount_process,
   fun _ => ⟨fun h => absurd rfl h, rfl⟩,
   invTS_process,
   processTrace_msg_once⟩

/-- Witness for C3: from the fresh state, an assistant `message.updated`
delivered twice broadcasts `message` exactly once. -/
theorem ep_assistant_message_once_witness :
    invTS emptyState ∧
    emptyState.currentAssistantMessageId = none ∧
    (processTrace emptyState
        [(0, .messageUpdated (some scenarioAssistantInfo)),
         (1, .messageUpdated (some scenarioAssistantInfo))]).2.countP
      ServerMessage.isMessageCompleteEvt = 0 ∧
    (processTrace emptyState
        [(0, .messageUpdated (some scenarioAssistantInfo)),
         (1, .messageUpdated (some scenarioAssistantInfo))]).2.countP
      ServerMessage.isMessageEvt = 1 := by
  refine ⟨fun h => absurd rfl h, rfl, by decide, ?_⟩
  have h := ep_assistant_message_once.2.2.2
    [(0, .messageUpdated (some scenarioAssistantInfo)),
     (1, .messageUpdated (some scenarioAssistantInfo))] emptyState
    (fun h => absurd rfl h) rfl (by decide)
  rw [h]
  decide

/-- C9: the tool-progress heartbeat. (1) A tracked tool's watch entry fires
exactly when at least `toolProgressHeartbeatMs` (~15s) has passed since its
last update and since its last heartbeat. (2) Every `status` broadcast
`process` emits is the rendered heartbeat of a tracked entry that fires at
the current time — so a heartbeat is emitted only for a tool silent for at
least the threshold. (3) When a tool's entry fires at time `n`, the
post-state satisfies the window invariant for `n` (every entry for that
tool stamps `n` or later); (4) any further events at times `≥ n` preserve
that invariant; and (5) under the invariant, the tool's entry can fire at a
time `n'` only if the full threshold has elapsed since `n` — so a second
heartbeat for the same tool needs the threshold between heartbeats. -/
theorem ep_tool_heartbeat_window :
    (∀ (now : Nat) (w : Watch), heartbeatFires now w = true ↔
      (toolProgressHeartbeatMs ≤ now - w.lastUpdateAt ∧
       toolProgressHeartbeatMs ≤ now - w.lastStatusBroadcastAt)) ∧
    (∀ (s : EPState) (now : Nat) (e : OpenCodeEvent),
      ∀ b ∈ (process s now e).2, ServerMessage.isStatusEvt b = true →
        ∃ p ∈ s.runningToolWatch, heartbeatFires now p.2 = true ∧
          b = renderHeartbeat now p.2) ∧
    (∀ (s : EPState) (t : String) (n : Nat) (e : OpenCodeEvent),
      (∀ p ∈ s.runningToolWatch, p.1 = t → heartbeatFires n p.2 = true) →
      watchWindowInv t n (process s n e).1.runningToolWatch) ∧
    (∀ (evts : List (Nat × OpenCodeEvent)) (s : EPState) (t : String)
      (n : Nat), (∀ q ∈ evts, n ≤ q.1) →
      watchWindowInv t n s.runningToolWatch →
      watchWindowInv t n (processTrace s evts).1.runningToolWatch) ∧
    (∀ (s : EPState) (t : String) (n n' : Nat),
      watchWindowInv t n s.runningToolWatch →
      ∀ p ∈ s.runningToolWatch, p.1 = t → heartbeatFires n' p.2 = true →
        toolProgressHeartbeatMs ≤ n' - n) :=
  ⟨heartbeatFires_iff,
   process_status_from_watch,
   fun s _ n e hf => winv_establish s n e hf,
   fun evts s _ _ hq h => winv_processTrace evts s hq h,
   fun s _ _ n' h => winv_window s n' h⟩

/-- Witness for C9: a tool heartbeated at `t = 15000` cannot fire again at
`t = 29999` and fires at `t = 30000`, a full threshold later; a silent tool
firing at `t = 15000` leaves the post-state window-stamped. -/
theorem ep_tool_heartbeat_window_witness :
    watchWindowInv "call1" 15000 heartbeatWindowState.runningToolWatch ∧
    heartbeatFires 29999
      { toolName := "bash", startedAt := 0, lastUpdateAt := 0,
        lastStatusBroadcastAt := 15000 } = false ∧
    heartbeatFires 30000
      { toolName := "bash", startedAt := 0, lastUpdateAt := 0,
        lastStatusBroadcastAt := 15000 } = true ∧
    toolProgressHeartbeatMs ≤ 30000 - 15000 ∧
    watchWindowInv "call1" 15000
      (process silentToolState 15000 .serverHeartbeat).1.runningToolWatch := by
  refine ⟨by decide, by decide, by decide, ?_, ?_⟩
  · exact ep_tool_heartbeat_window.2.2.2.2 heartbeatWindowState "call1"
      15000 30000 (by decide)
      ("call1",
        { toolName := "bash", startedAt := 0, lastUpdateAt := 0,
          lastStatusBroadcastAt := 15000 })
      (by decide) rfl (by decide)
  · exact ep_tool_heartbeat_window.2.2.1 silentToolState "call1" 15000
      .serverHeartbeat (by decide)

end EpClaims

end Proliferate
